import Mathlib

/-!
Shallow embedding of the Christmas Light Control firmware core
(`src/main_refactored_patterns/main_refactored_patterns.ino`).

The global mutable variables of the sketch are collected into one `Ctrl`
structure; each C function becomes a Lean function from `Ctrl` (plus the
environment inputs it reads: the monotonic clock `millis()`, the DHT
temperature reading, wall-clock time, and the random source) to `Ctrl`.

Conventions:
* `millis()` values are natural numbers; the firmware's wraparound-safe
  unsigned subtraction `(unsigned long)(now - last)` is modelled by
  `elapsed`, i.e. subtraction modulo `2^32`.
* The 8-bit relay frame is a `Nat` (kept below 256 by the operations);
  bit `i` is channel `i`, read with `frameBit` (`(frame >> idx) & 0x01`).
* `float` temperatures are modelled as rationals; `isnan` readings are
  `Option.none`.
* Arduino `random(0, n)` is modelled by a tape `RTape`: an infinite
  sequence of draws, the `p`-th draw with bound `n` being
  `tape p (n-1) : Fin n`.  The controller state carries the read
  position `rngPos`.
* Per-pattern C `static` locals are fields of `Ctrl` (they persist across
  pattern switches exactly as function-local statics do).
* Preferences (`prefs.put*`), serial prints and the HTTP replies are
  external side effects with no influence on the core state; they are
  dropped.
-/

/-- `const uint16_t minDwellMs = 200` -/
def minDwellMs : Nat := 200

/-- `const float OVERHEAT_ON_C = 50.0` -/
def OVERHEAT_ON_C : ℚ := 50

/-- `const float OVERHEAT_OFF_C = 45.0` -/
def OVERHEAT_OFF_C : ℚ := 45

/-- `const unsigned long TEMP_READ_INTERVAL_MS = 60000` -/
def TEMP_READ_INTERVAL_MS : Nat := 60000

/-- `const bool RELAY_ACTIVE_LOW = false` -/
def RELAY_ACTIVE_LOW : Bool := false

/-- Unsigned 32-bit subtraction `(unsigned long)(now - last)`:
difference modulo `2^32`. -/
def elapsed (now last : Nat) : Nat :=
  (now + 2 ^ 32 - last % 2 ^ 32) % 2 ^ 32

/-- `(frame >> idx) & 0x01` as a boolean. -/
def frameBit (frame idx : Nat) : Bool := Nat.testBit frame idx

/-- `popcount8`: number of set bits among the low 8 bits. -/
def popcount8 (v : Nat) : Nat :=
  (List.range 8).foldl (fun acc i => acc + ((v >>> i) &&& 1)) 0

/-- `enum Pattern` -/
inductive Pattern where
  | CHASE | WAVE | RANDOM
  | ALT_EVEN_ODD | BOUNCE | CHASE_GAP | PAIR_PINGPONG
  | BLOCK_WIPE | OVERLAP_WAVE | SPARKLE_SPARSE | RANDOM_BURSTS
  | HALF_SWAP | BINARY_COUNT
deriving DecidableEq, Repr

open Pattern

/-- `const char* patternName(Pattern p)` -/
def patternName : Pattern → String
  | CHASE => "CHASE"
  | WAVE => "WAVE"
  | RANDOM => "RANDOM"
  | ALT_EVEN_ODD => "ALT_EVEN_ODD"
  | BOUNCE => "BOUNCE"
  | CHASE_GAP => "CHASE_GAP"
  | PAIR_PINGPONG => "PAIR_PINGPONG"
  | BLOCK_WIPE => "BLOCK_WIPE"
  | OVERLAP_WAVE => "OVERLAP_WAVE"
  | SPARKLE_SPARSE => "SPARKLE_SPARSE"
  | RANDOM_BURSTS => "RANDOM_BURSTS"
  | HALF_SWAP => "HALF_SWAP"
  | BINARY_COUNT => "BINARY_COUNT"

/-- `Pattern playlist[] = { ... }` -/
def playlist : List Pattern :=
  [ALT_EVEN_ODD, BOUNCE, BLOCK_WIPE, OVERLAP_WAVE, HALF_SWAP,
   CHASE, CHASE_GAP, PAIR_PINGPONG, BINARY_COUNT, RANDOM_BURSTS, SPARKLE_SPARSE]

/-- `const size_t playlistLen` (= 11) -/
def playlistLen : Nat := playlist.length

/-- Random source: draw number `p` with argument `random(0, k+1)` yields
`tape p k < k + 1`.  Quantifying over all tapes covers every outcome of
the firmware's PRNG. -/
def RTape : Type := Nat → (k : Nat) → Fin (k + 1)

/-- All global mutable state of the sketch, including the per-pattern
function-local `static` variables. -/
structure Ctrl where
  /-- `uint8_t currentFrame` (logical relay bitmask, 1 = ON) -/
  currentFrame : Nat
  /-- `unsigned long lastChangeMs[8]` (indexed 0..7) -/
  lastChangeMs : Nat → Nat
  /-- physical output level of each relay pin (after polarity) -/
  pins : Nat → Bool
  /-- `float enclosureTemp` (`NAN` = `none`) -/
  enclosureTemp : Option ℚ
  /-- `bool overheatShutdown` -/
  overheatShutdown : Bool
  /-- `bool relaysEnabled` -/
  relaysEnabled : Bool
  /-- `bool manualOverride` -/
  manualOverride : Bool
  /-- `bool alreadyOff` -/
  alreadyOff : Bool
  /-- `bool allOnMode` -/
  allOnMode : Bool
  /-- `Pattern currentPattern` -/
  currentPattern : Pattern
  /-- `int patternSpeed` -/
  patternSpeed : Int
  /-- `uint8_t patIndex` -/
  patIndex : Nat
  /-- `unsigned long lastPatStep` -/
  lastPatStep : Nat
  /-- `bool shuffleEnabled` -/
  shuffleEnabled : Bool
  /-- `uint32_t patternHoldMs` -/
  patternHoldMs : Nat
  /-- `unsigned long patternStart` -/
  patternStart : Nat
  /-- `uint8_t playOrder[16]` -/
  playOrder : List Nat
  /-- `uint8_t playPos` -/
  playPos : Nat
  /-- `int on_h` -/
  on_h : Int
  /-- `int on_m` -/
  on_m : Int
  /-- `int off_h` -/
  off_h : Int
  /-- `int off_m` -/
  off_m : Int
  /-- `bool useSunset` -/
  useSunset : Bool
  /-- `int sunsetOffsetMin` -/
  sunsetOffsetMin : Int
  /-- `unsigned long lastSunsetUpdate` -/
  lastSunsetUpdate : Nat
  /-- `unsigned long lastTempReadMs` -/
  lastTempReadMs : Nat
  /-- `unsigned long lastScheduleCheck` -/
  lastScheduleCheck : Nat
  /-- static `bool evenOn` of `frame_ALT_EVEN_ODD` -/
  altEvenOn : Bool
  /-- static `int idx` of `frame_BOUNCE` -/
  bounceIdx : Int
  /-- static `int dir` of `frame_BOUNCE` -/
  bounceDir : Int
  /-- static `uint8_t pos` of `frame_CHASE_GAP` -/
  gapPos : Nat
  /-- static `int idx` of `frame_PAIR_PINGPONG` -/
  ppIdx : Int
  /-- static `int dir` of `frame_PAIR_PINGPONG` -/
  ppDir : Int
  /-- static `uint8_t width` of `frame_BLOCK_WIPE` -/
  blockWidth : Nat
  /-- static `uint8_t k` of `frame_OVERLAP_WAVE` -/
  owK : Nat
  /-- static `uint8_t mask` of `frame_SPARKLE_SPARSE` -/
  sparkleMask : Nat
  /-- static `uint8_t mask` of `frame_RANDOM_BURSTS` -/
  burstMask : Nat
  /-- static `int burst` of `frame_RANDOM_BURSTS` -/
  burstLeft : Int
  /-- static `bool leftOn` of `frame_HALF_SWAP` -/
  halfLeftOn : Bool
  /-- static `uint8_t count` of `frame_BINARY_COUNT` -/
  binCount : Nat
  /-- static `bool filling` of the `WAVE` case in `stepPatternIfDue` -/
  waveFilling : Bool
  /-- static `uint8_t level` of the `WAVE` case in `stepPatternIfDue` -/
  waveLevel : Nat
  /-- next unread position on the random tape -/
  rngPos : Nat

/-- Draw `random(0, n)` from the tape (result is `< n` for `n ≥ 1`). -/
def randBelow (tape : RTape) (s : Ctrl) (n : Nat) : Nat × Ctrl :=
  ((tape s.rngPos (n - 1)).val, { s with rngPos := s.rngPos + 1 })

/-- `inline void _writeRelayDirect(int idx, bool on)` — out-of-range
indices are ignored; `RELAY_ACTIVE_LOW` selects the electrical level. -/
def writeRelayDirect (s : Ctrl) (idx : Int) (turnOn : Bool) : Ctrl :=
  if idx < 0 ∨ 8 ≤ idx then s
  else
    let level := if RELAY_ACTIVE_LOW then !turnOn else turnOn
    { s with pins := Function.update s.pins idx.toNat level }

/-- `int setRelaySafe(int idx, bool wantOn)` — returns `-2` for a bad
index, `0` for a no-op, `-1` when suppressed by the dwell window, `1`
when the relay was switched.  `now` is `millis()`. -/
def setRelaySafe (s : Ctrl) (now : Nat) (idx : Int) (wantOn : Bool) :
    Ctrl × Int :=
  if idx < 0 ∨ 8 ≤ idx then (s, -2)
  else
    let w1 := if s.overheatShutdown then false else wantOn
    let w2 := if s.relaysEnabled then w1 else false
    let i := idx.toNat
    let isOn := frameBit s.currentFrame i
    if isOn = w2 then (s, 0)
    else if elapsed now (s.lastChangeMs i) < minDwellMs then (s, -1)
    else
      let s1 := writeRelayDirect s idx w2
      let s2 := { s1 with lastChangeMs := Function.update s1.lastChangeMs i now }
      let s3 :=
        if w2 then { s2 with currentFrame := s2.currentFrame ||| (1 <<< i) }
        else { s2 with currentFrame := s2.currentFrame &&& (255 ^^^ (1 <<< i)) }
      (s3, 1)

/-- `void forceAllRelaysOff()` — unconditional, also refreshes
`lastChangeMs`. -/
def forceAllRelaysOff (s : Ctrl) (now : Nat) : Ctrl :=
  (List.range 8).foldl
    (fun s i =>
      let s1 := writeRelayDirect s (i : Nat) false
      { s1 with
        currentFrame := s1.currentFrame &&& (255 ^^^ (1 <<< i)),
        lastChangeMs := Function.update s1.lastChangeMs i now })
    s

/-- `void applyFrame(uint8_t frame)` -/
def applyFrame (s : Ctrl) (now : Nat) (frame : Nat) : Ctrl :=
  (List.range 8).foldl
    (fun s i => (setRelaySafe s now ((i : Nat) : Int) (frameBit frame i)).1) s

/-- `void checkTemperatureAndProtect()` — `reading` is the DHT sample
(`none` when `isnan`). -/
def checkTemperatureAndProtect (s : Ctrl) (now : Nat) (reading : Option ℚ) :
    Ctrl :=
  if elapsed now s.lastTempReadMs < TEMP_READ_INTERVAL_MS then s
  else
    let s := { s with lastTempReadMs := now }
    match reading with
    | none => s
    | some t =>
      let s := { s with enclosureTemp := some t }
      if s.overheatShutdown = false ∧ OVERHEAT_ON_C ≤ t then
        let s := forceAllRelaysOff { s with overheatShutdown := true } now
        { s with relaysEnabled := false }
      else if s.overheatShutdown = true ∧ t ≤ OVERHEAT_OFF_C then
        { s with overheatShutdown := false }
      else s

/-- `uint8_t frame_ALT_EVEN_ODD()` -/
def frame_ALT_EVEN_ODD (s : Ctrl) : Ctrl × Nat :=
  let evenOn := !s.altEvenOn
  ({ s with altEvenOn := evenOn }, if evenOn then 0x55 else 0xAA)

/-- `uint8_t frame_BOUNCE()` -/
def frame_BOUNCE (s : Ctrl) : Ctrl × Nat :=
  let mask := 1 <<< s.bounceIdx.toNat
  let idx := s.bounceIdx + s.bounceDir
  if 7 ≤ idx then ({ s with bounceIdx := 7, bounceDir := -1 }, mask)
  else if idx ≤ 0 then ({ s with bounceIdx := 0, bounceDir := 1 }, mask)
  else ({ s with bounceIdx := idx }, mask)

/-- `uint8_t frame_CHASE_GAP()` (`gapLen = 1`) -/
def frame_CHASE_GAP (s : Ctrl) : Ctrl × Nat :=
  let mask := 1 <<< s.gapPos
  ({ s with gapPos := (s.gapPos + 1) % 8 }, mask)

/-- `uint8_t frame_PAIR_PINGPONG()` -/
def frame_PAIR_PINGPONG (s : Ctrl) : Ctrl × Nat :=
  let a := s.ppIdx.toNat
  let b := (min (s.ppIdx + 1) 7).toNat
  let mask := (1 <<< a) ||| (1 <<< b)
  let idx := s.ppIdx + s.ppDir
  if 6 ≤ idx then ({ s with ppIdx := 6, ppDir := -1 }, mask)
  else if idx ≤ 0 then ({ s with ppIdx := 0, ppDir := 1 }, mask)
  else ({ s with ppIdx := idx }, mask)

/-- `uint8_t frame_BLOCK_WIPE()` — increments `width` mod 9 first, then
returns the low-`width`-bits mask. -/
def frame_BLOCK_WIPE (s : Ctrl) : Ctrl × Nat :=
  let width := (s.blockWidth + 1) % 9
  ({ s with blockWidth := width }, if width = 0 then 0 else (1 <<< width) - 1)

/-- `uint8_t frame_OVERLAP_WAVE()` -/
def frame_OVERLAP_WAVE (s : Ctrl) : Ctrl × Nat :=
  let k := s.owK
  let mask :=
    if k ≤ 8 then (if k = 0 then 0 else (1 <<< k) - 1)
    else 255 ^^^ ((1 <<< (k - 8)) - 1)
  ({ s with owK := (k + 1) % 17 }, mask)

/-- Inner `for` pass of `frame_SPARKLE_SPARSE`'s `while`: strips low set
bits while more than 3 are set.  One pass always leaves at most 3 bits
set, so the outer `while` runs it exactly once when entered. -/
def sparkleStrip (mask : Nat) : Nat :=
  (List.range 8).foldl
    (fun m i => if 3 < popcount8 m ∧ frameBit m i then m &&& (255 ^^^ (1 <<< i)) else m)
    mask

/-- `uint8_t frame_SPARKLE_SPARSE()` -/
def frame_SPARKLE_SPARSE (tape : RTape) (s : Ctrl) : Ctrl × Nat :=
  let (b1, s) := randBelow tape s 8
  let mask := s.sparkleMask ^^^ (1 <<< b1)
  let (b2, s) := randBelow tape s 8
  let mask := mask ^^^ (1 <<< b2)
  let mask := sparkleStrip mask
  ({ s with sparkleMask := mask }, mask)

/-- Bounded unrolling of `while (popcount8(mask) < count) mask |= 1 << random(0,8)`
in `frame_RANDOM_BURSTS` (the C loop terminates with probability 1; the
model stops after `fuel` draws). -/
def burstFill (tape : RTape) (count : Nat) : Nat → Nat → Ctrl → Nat × Ctrl
  | 0, mask, s => (mask, s)
  | fuel + 1, mask, s =>
    if popcount8 mask < count then
      let (b, s) := randBelow tape s 8
      burstFill tape count fuel (mask ||| (1 <<< b)) s
    else (mask, s)

/-- `uint8_t frame_RANDOM_BURSTS()` -/
def frame_RANDOM_BURSTS (tape : RTape) (s : Ctrl) : Ctrl × Nat :=
  if 0 < s.burstLeft then ({ s with burstLeft := s.burstLeft - 1 }, s.burstMask)
  else
    let (r, s) := randBelow tape s 10
    if r = 0 then
      let (c, s) := randBelow tape s 4
      let count := 2 + c
      let (mask, s) := burstFill tape count 32 0 s
      let (d, s) := randBelow tape s 4
      ({ s with burstMask := mask, burstLeft := Int.ofNat (3 + d) }, mask)
    else ({ s with burstMask := 0 }, 0)

/-- `uint8_t frame_HALF_SWAP()` -/
def frame_HALF_SWAP (s : Ctrl) : Ctrl × Nat :=
  let leftOn := !s.halfLeftOn
  ({ s with halfLeftOn := leftOn }, if leftOn then 0x0F else 0xF0)

/-- `uint8_t frame_BINARY_COUNT()` -/
def frame_BINARY_COUNT (s : Ctrl) : Ctrl × Nat :=
  ({ s with binCount := (s.binCount + 1) % 256 }, s.binCount)

/-- The `switch (currentPattern)` body of `stepPatternIfDue`: computes the
next frame of the active pattern and advances that pattern's counters. -/
def nextPatternFrame (tape : RTape) (s : Ctrl) : Ctrl × Nat :=
  match s.currentPattern with
  | CHASE => ({ s with patIndex := (s.patIndex + 1) % 8 }, 1 <<< s.patIndex)
  | WAVE =>
    let frame := if s.waveLevel = 0 then 0 else (1 <<< (s.waveLevel + 1)) - 1
    if s.waveFilling then
      if 7 ≤ s.waveLevel + 1 then
        ({ s with waveLevel := 7, waveFilling := false }, frame)
      else ({ s with waveLevel := s.waveLevel + 1 }, frame)
    else
      if s.waveLevel = 0 then ({ s with waveFilling := true }, frame)
      else ({ s with waveLevel := s.waveLevel - 1 }, frame)
  | RANDOM =>
    let (b, s) := randBelow tape s 8
    (s, 1 <<< b)
  | ALT_EVEN_ODD => frame_ALT_EVEN_ODD s
  | BOUNCE => frame_BOUNCE s
  | CHASE_GAP => frame_CHASE_GAP s
  | PAIR_PINGPONG => frame_PAIR_PINGPONG s
  | BLOCK_WIPE => frame_BLOCK_WIPE s
  | OVERLAP_WAVE => frame_OVERLAP_WAVE s
  | SPARKLE_SPARSE => frame_SPARKLE_SPARSE tape s
  | RANDOM_BURSTS => frame_RANDOM_BURSTS tape s
  | HALF_SWAP => frame_HALF_SWAP s
  | BINARY_COUNT => frame_BINARY_COUNT s

/-- `void stepPatternIfDue()` -/
def stepPatternIfDue (tape : RTape) (s : Ctrl) (now : Nat) : Ctrl :=
  if s.allOnMode then s
  else
    let stepMs : Int :=
      if s.patternSpeed < (minDwellMs : Int) then (minDwellMs : Int) else s.patternSpeed
    if elapsed now s.lastPatStep < stepMs.toNat then s
    else
      let s := { s with lastPatStep := now }
      let (s, frame) := nextPatternFrame tape s
      applyFrame s now frame

/-- `void buildSequentialOrder()` -/
def buildSequentialOrder (s : Ctrl) : Ctrl :=
  let l := (List.range playlistLen).foldl (fun l i => l.set i i) s.playOrder
  { s with playOrder := l, playPos := 0 }

/-- The three-assignment swap
`t = playOrder[i]; playOrder[i] = playOrder[j]; playOrder[j] = t`. -/
def listSwap (l : List Nat) (i j : Nat) : List Nat :=
  let a := l.getD i 0
  let b := l.getD j 0
  (l.set i b).set j a

/-- Loop counter values of `for (int i = playlistLen - 1; i > 0; i--)`. -/
def fyIdxs : List Nat := [10, 9, 8, 7, 6, 5, 4, 3, 2, 1]

/-- `void buildShuffledOrder()` — identity followed by a Fisher–Yates
pass with `j = random(0, i + 1)`. -/
def buildShuffledOrder (tape : RTape) (s : Ctrl) : Ctrl :=
  let l := (List.range playlistLen).foldl (fun l i => l.set i i) s.playOrder
  let lp := fyIdxs.foldl
    (fun (lp : List Nat × Nat) i =>
      let j := (tape lp.2 i).val
      (listSwap lp.1 i j, lp.2 + 1))
    (l, s.rngPos)
  { s with playOrder := lp.1, rngPos := lp.2, playPos := 0 }

/-- `void startPattern(Pattern p)` (the `prefs` write is external). -/
def startPattern (now : Nat) (p : Pattern) (s : Ctrl) : Ctrl :=
  { s with currentPattern := p, patIndex := 0, lastPatStep := 0,
           patternStart := now }

/-- `void maybeAdvancePattern()` -/
def maybeAdvancePattern (tape : RTape) (s : Ctrl) (now : Nat) : Ctrl :=
  if s.relaysEnabled = false then s
  else if s.allOnMode then s
  else if s.shuffleEnabled = false then s
  else if elapsed now s.patternStart < s.patternHoldMs then s
  else
    let s := if playlistLen ≤ s.playPos then buildShuffledOrder tape s else s
    let next := playlist.getD (s.playOrder.getD s.playPos 0) CHASE
    startPattern now next { s with playPos := s.playPos + 1 }

/-- `bool computeShouldBeOn()` — `timeOpt` is `getLocalTime`'s result
(`none` when wall-clock time is unavailable). -/
def computeShouldBeOn (timeOpt : Option (Nat × Nat)) (s : Ctrl) : Bool :=
  match timeOpt with
  | none => s.relaysEnabled
  | some (h, mi) =>
    let now_min : Int := h * 60 + mi
    let on_min := s.on_h * 60 + s.on_m
    let off_min := s.off_h * 60 + s.off_m
    if on_min ≤ off_min then decide (on_min ≤ now_min ∧ now_min < off_min)
    else decide (on_min ≤ now_min ∨ now_min < off_min)

/-- Whitespace as recognised by `isspace` (used by `String::trim` and
`atol`). -/
def isSpaceCh (c : Char) : Bool :=
  c = ' ' ∨ c = '\t' ∨ c = '\n' ∨ c = '\x0b' ∨ c = '\x0c' ∨ c = '\r'

/-- Arduino `String::trim()`: strip leading and trailing whitespace. -/
def trimChars (l : List Char) : List Char :=
  ((l.dropWhile isSpaceCh).reverse.dropWhile isSpaceCh).reverse

/-- Leading-digit accumulation for `atol`. -/
def atolDigits (acc : Int) : List Char → Int
  | [] => acc
  | c :: cs => if c.isDigit then atolDigits (acc * 10 + (c.toNat - '0'.toNat)) cs else acc

/-- Arduino `String::toInt()` = C `atol`: skip whitespace, optional sign,
then the longest digit prefix; no digits yields 0. -/
def strToInt (l : List Char) : Int :=
  let l := l.dropWhile isSpaceCh
  match l with
  | '-' :: rest => - atolDigits 0 rest
  | '+' :: rest => atolDigits 0 rest
  | _ => atolDigits 0 l

/-- Position of the first occurrence of `c` (Arduino `String::indexOf`,
`none` for "not found", i.e. `-1`). -/
def indexOfCh (c : Char) : List Char → Option Nat
  | [] => none
  | d :: ds => if d = c then some 0 else (indexOfCh c ds).map (· + 1)

/-- `bool parseTimeStr(String s, int &h, int &m)` — `some (h, m)` when it
returns `true`. -/
def parseTimeStr (l : List Char) : Option (Int × Int) :=
  let t := trimChars l
  match indexOfCh ':' t with
  | none => none
  | some colon =>
    let hh := strToInt (t.take colon)
    let mm := strToInt (t.drop (colon + 1))
    if hh < 0 ∨ 23 < hh ∨ mm < 0 ∨ 59 < mm then none
    else some (hh, mm)

/-- `void handleOn()` -/
def handleOn (s : Ctrl) : Ctrl :=
  { s with relaysEnabled := true, manualOverride := true, alreadyOff := false }

/-- `void handleOff()` -/
def handleOff (s : Ctrl) (now : Nat) : Ctrl :=
  let s := { s with allOnMode := false, relaysEnabled := false,
                    manualOverride := true }
  { forceAllRelaysOff s now with alreadyOff := true }

/-- `void handleAuto()` -/
def handleAuto (s : Ctrl) : Ctrl :=
  { s with manualOverride := false }

/-- `void handleAllOn()` -/
def handleAllOn (s : Ctrl) (now : Nat) : Ctrl :=
  if s.allOnMode then { s with allOnMode := false, patternStart := now }
  else if s.overheatShutdown then s
  else
    let s := { s with relaysEnabled := true, manualOverride := true,
                      allOnMode := true }
    applyFrame s now 255

/-- `void handleSetSchedule()` — each of the two fields is updated only
when its string parses. -/
def handleSetSchedule (onS offS : List Char) (s : Ctrl) : Ctrl :=
  let s := match parseTimeStr onS with
    | some (h, m) => { s with on_h := h, on_m := m }
    | none => s
  match parseTimeStr offS with
  | some (h, m) => { s with off_h := h, off_m := m }
  | none => s

/-- `void handleSunsetMode()` -/
def handleSunsetMode (enable : Bool) (s : Ctrl) : Ctrl :=
  { s with useSunset := enable }

/-- `void handleSetSunsetOffset()` -/
def handleSetSunsetOffset (v : Int) (s : Ctrl) : Ctrl :=
  let m := if v < -180 then -180 else v
  let m := if 180 < m then 180 else m
  { s with sunsetOffsetMin := m }

/-- `void handleSetSpeed()` — clamps to `[minDwellMs, 2000]`. -/
def handleSetSpeed (v : Int) (s : Ctrl) : Ctrl :=
  let val := if v < (minDwellMs : Int) then (minDwellMs : Int) else v
  let val := if 2000 < val then 2000 else val
  { s with patternSpeed := val }

/-- Name lookup of `handlePattern` (after `toUpperCase`); an unknown name
keeps `currentPattern`. -/
def patternFromName (n : String) (cur : Pattern) : Pattern :=
  if n = "CHASE" then CHASE
  else if n = "WAVE" then WAVE
  else if n = "RANDOM" then RANDOM
  else if n = "ALT_EVEN_ODD" then ALT_EVEN_ODD
  else if n = "BOUNCE" then BOUNCE
  else if n = "CHASE_GAP" then CHASE_GAP
  else if n = "PAIR_PINGPONG" then PAIR_PINGPONG
  else if n = "BLOCK_WIPE" then BLOCK_WIPE
  else if n = "OVERLAP_WAVE" then OVERLAP_WAVE
  else if n = "SPARKLE_SPARSE" then SPARKLE_SPARSE
  else if n = "RANDOM_BURSTS" then RANDOM_BURSTS
  else if n = "HALF_SWAP" then HALF_SWAP
  else if n = "BINARY_COUNT" then BINARY_COUNT
  else cur

/-- `void handlePattern()` — cancels All-ON, then switches (and thereby
resets `patIndex`/`lastPatStep`) even if the name is unknown. -/
def handlePattern (name : String) (s : Ctrl) (now : Nat) : Ctrl :=
  let s := if s.allOnMode then { s with allOnMode := false } else s
  let next := patternFromName name.toUpper s.currentPattern
  startPattern now next { s with currentPattern := next }

/-- `void handleSetShuffle()` — `"1"`/`"true"` enable, `"0"`/`"false"`
disable, anything else is ignored. -/
def handleSetShuffle (tape : RTape) (arg : String) (s : Ctrl) (now : Nat) :
    Ctrl :=
  let a := (String.mk (trimChars arg.data)).toLower
  if a = "1" ∨ a = "true" then
    let s := { s with shuffleEnabled := true }
    let s := buildShuffledOrder tape s
    { s with playPos := 0, patternStart := now }
  else if a = "0" ∨ a = "false" then
    { s with shuffleEnabled := false, playPos := 0, patternStart := now }
  else s

/-- `void handleSetHold()` — seconds clamped to `[10, 600]`. -/
def handleSetHold (v : Int) (s : Ctrl) : Ctrl :=
  let sec := if v < 10 then 10 else v
  let sec := if 600 < sec then 600 else sec
  { s with patternHoldMs := sec.toNat * 1000 }

/-- Snapshot built by `handleStatusJSON` (field per JSON key). -/
structure StatusJSON where
  time : Option (Nat × Nat)
  on_h : Int
  on_m : Int
  off_h : Int
  off_m : Int
  pattern : String
  speed_ms : Int
  sunset_enabled : Bool
  sunset_offset_min : Int
  relays_enabled : Bool
  mode : String
  shuffle : Bool
  all_on : Bool
  hold_s : Nat
deriving DecidableEq, Repr

/-- `void handleStatusJSON()` -/
def handleStatusJSON (timeOpt : Option (Nat × Nat)) (s : Ctrl) : StatusJSON :=
  { time := timeOpt
    on_h := s.on_h, on_m := s.on_m, off_h := s.off_h, off_m := s.off_m
    pattern := patternName s.currentPattern
    speed_ms := s.patternSpeed
    sunset_enabled := s.useSunset
    sunset_offset_min := s.sunsetOffsetMin
    relays_enabled := s.relaysEnabled
    mode := if s.manualOverride then "MANUAL" else "AUTO"
    shuffle := s.shuffleEnabled
    all_on := s.allOnMode
    hold_s := s.patternHoldMs / 1000 }

/-- Environment inputs of one `loop()` iteration. -/
structure TickEnv where
  /-- `millis()` during this iteration -/
  now : Nat
  /-- DHT temperature sample (`none` = `isnan`) -/
  temp : Option ℚ
  /-- `getLocalTime` result -/
  time : Option (Nat × Nat)
  /-- sunset fetch: `none` = Wi-Fi/API key unavailable, `some none` =
  attempted fetch failed, `some (some (h, m))` = fetch succeeded and the
  sunset plus offset falls at `h:m` local time -/
  sunset : Option (Option (Int × Int))

/-- Daily sunset-update block at the top of `loop()`. -/
def sunsetBlock (e : TickEnv) (s : Ctrl) : Ctrl :=
  match e.sunset with
  | none => s
  | some r =>
    if s.useSunset then
      if 86400000 < elapsed e.now s.lastSunsetUpdate then
        match r with
        | some (h, m) => { s with on_h := h, on_m := m, lastSunsetUpdate := e.now }
        | none =>
          { s with lastSunsetUpdate := (e.now + 2 ^ 32 - 86400000 + 600000) % 2 ^ 32 }
      else s
    else s

/-- Once-a-second schedule re-evaluation block of `loop()` (AUTO mode). -/
def scheduleBlock (e : TickEnv) (s : Ctrl) : Ctrl :=
  if s.manualOverride = false ∧ 1000 < elapsed e.now s.lastScheduleCheck then
    let s := { s with lastScheduleCheck := e.now }
    let shouldBeOn := computeShouldBeOn e.time s
    if shouldBeOn ≠ s.relaysEnabled then
      let s := { s with relaysEnabled := shouldBeOn, alreadyOff := !shouldBeOn }
      if shouldBeOn then { s with patternStart := e.now }
      else forceAllRelaysOff { s with allOnMode := false } e.now
    else s
  else s

/-- One iteration of `void loop()` (web serving, DNS and the reboot check
are external). -/
def loopTick (tape : RTape) (e : TickEnv) (s : Ctrl) : Ctrl :=
  let s := sunsetBlock e s
  let s := checkTemperatureAndProtect s e.now e.temp
  let s := scheduleBlock e s
  if s.allOnMode && s.relaysEnabled && !s.overheatShutdown then
    applyFrame s e.now 255
  else
    let s := maybeAdvancePattern tape s e.now
    if s.relaysEnabled && !s.overheatShutdown then
      stepPatternIfDue tape { s with alreadyOff := false } e.now
    else if !s.alreadyOff then
      { forceAllRelaysOff s e.now with alreadyOff := true }
    else s

/-- External stimuli of the controller: a web command or a loop tick. -/
inductive Evt where
  /-- a command handler runs (at `millis() = now`) -/
  | cmdOn (now : Nat)
  | cmdOff (now : Nat)
  | cmdAuto (now : Nat)
  | cmdAllOn (now : Nat)
  | cmdPattern (now : Nat) (name : String)
  | cmdSchedule (now : Nat) (onS offS : List Char)
  | cmdSunsetMode (now : Nat) (b : Bool)
  | cmdSunsetOffset (now : Nat) (v : Int)
  | cmdSpeed (now : Nat) (v : Int)
  | cmdShuffle (now : Nat) (arg : String)
  | cmdHold (now : Nat) (v : Int)
  /-- one `loop()` iteration -/
  | tick (e : TickEnv)

/-- Apply one stimulus. -/
def stepEvt (tape : RTape) (s : Ctrl) : Evt → Ctrl
  | .cmdOn _ => handleOn s
  | .cmdOff now => handleOff s now
  | .cmdAuto _ => handleAuto s
  | .cmdAllOn now => handleAllOn s now
  | .cmdPattern now name => handlePattern name s now
  | .cmdSchedule _ onS offS => handleSetSchedule onS offS s
  | .cmdSunsetMode _ b => handleSunsetMode b s
  | .cmdSunsetOffset _ v => handleSetSunsetOffset v s
  | .cmdSpeed _ v => handleSetSpeed v s
  | .cmdShuffle now arg => handleSetShuffle tape arg s now
  | .cmdHold _ v => handleSetHold v s
  | .tick e => loopTick tape e s

/-- Run a stimulus sequence. -/
def run (tape : RTape) (s : Ctrl) (evts : List Evt) : Ctrl :=
  evts.foldl (stepEvt tape) s

/-- State after `setup()` up to the playlist build: `initRelaysPins()`
(at `millis() = 0`, so `lastChangeMs[i] = 0`) followed by `loadPrefs()`
with an empty preferences store (all defaults). -/
def initCtrl : Ctrl :=
  { currentFrame := 0
    lastChangeMs := fun _ => 0
    pins := fun _ => RELAY_ACTIVE_LOW
    enclosureTemp := none
    overheatShutdown := false
    relaysEnabled := false
    manualOverride := false
    alreadyOff := true
    allOnMode := false
    currentPattern := CHASE
    patternSpeed := 200
    patIndex := 0
    lastPatStep := 0
    shuffleEnabled := true
    patternHoldMs := 60000
    patternStart := 0
    playOrder := List.replicate 16 0
    playPos := 0
    on_h := 18, on_m := 0, off_h := 22, off_m := 0
    useSunset := true
    sunsetOffsetMin := 0
    lastSunsetUpdate := 0
    lastTempReadMs := 0
    lastScheduleCheck := 0
    altEvenOn := false
    bounceIdx := 0, bounceDir := 1
    gapPos := 0
    ppIdx := 0, ppDir := 1
    blockWidth := 0
    owK := 0
    sparkleMask := 0
    burstMask := 0, burstLeft := 0
    halfLeftOn := false
    binCount := 0
    waveFilling := true, waveLevel := 0
    rngPos := 0 }

/-- End of `setup()`: the playlist order is built (shuffle defaults to
enabled) and `patternStart` is stamped. -/
def setupCtrl (tape : RTape) : Ctrl :=
  { buildShuffledOrder tape initCtrl with patternStart := 0 }

/-- Relay-subsystem stimuli for dwell-safety traces: direct
`setRelaySafe` calls, whole frames through `applyFrame`, and adversarial
changes of the gating flags. -/
inductive RelayOp where
  | set (idx : Int) (wantOn : Bool)
  | frame (f : Nat)
  | flags (overheat enabled : Bool)

/-- Apply one timed relay stimulus. -/
def relayStep (s : Ctrl) : Nat × RelayOp → Ctrl
  | (t, .set idx w) => (setRelaySafe s t idx w).1
  | (t, .frame f) => applyFrame s t f
  | (_, .flags o e) => { s with overheatShutdown := o, relaysEnabled := e }

/-- Run a timed relay stimulus sequence. -/
def relayRun (s : Ctrl) (ops : List (Nat × RelayOp)) : Ctrl :=
  ops.foldl relayStep s

/-- Times at which channel `i`'s output toggles (its `currentFrame` bit
changes) during a relay stimulus sequence. -/
def toggleTimes (i : Nat) (s : Ctrl) : List (Nat × RelayOp) → List Nat
  | [] => []
  | op :: rest =>
    let s' := relayStep s op
    if frameBit s'.currentFrame i = frameBit s.currentFrame i
    then toggleTimes i s' rest
    else op.1 :: toggleTimes i s' rest

/-- A tape that always draws 0 (one concrete PRNG outcome). -/
def tapeZ : RTape := fun _ k => ⟨0, Nat.succ_pos k⟩

/-- Iterate `frame_BLOCK_WIPE`'s state change `n` times. -/
def bwIter : Nat → Ctrl → Ctrl
  | 0, s => s
  | n + 1, s => bwIter n (frame_BLOCK_WIPE s).1

/-- Frame returned by the `(n+1)`-st call to `frame_BLOCK_WIPE` (0-based
`n`), starting from `s`. -/
def bwFrameAt (n : Nat) (s : Ctrl) : Nat :=
  (frame_BLOCK_WIPE (bwIter n s)).2

/-- First `n` frames produced by successive `frame_BLOCK_WIPE` calls. -/
def bwFrames (n : Nat) (s : Ctrl) : List Nat :=
  (List.range n).map (fun k => bwFrameAt k s)

/-- Iterate the pattern stepper's frame computation `n` times. -/
def patIter (tape : RTape) : Nat → Ctrl → Ctrl
  | 0, s => s
  | n + 1, s => patIter tape n (nextPatternFrame tape s).1

/-- Frame produced by the `(n+1)`-st due step (0-based `n`) from `s`. -/
def patFrameAt (tape : RTape) (n : Nat) (s : Ctrl) : Nat :=
  (nextPatternFrame tape (patIter tape n s)).2

/-- Run `n` due playlist advances (each at the instant its hold expires)
and record the playlist index consumed from `playOrder` at each. -/
def consumeRun (tape : RTape) : Nat → Ctrl → Ctrl × List Nat
  | 0, s => (s, [])
  | n + 1, s =>
    let idx := s.playOrder.getD s.playPos 0
    let s' := maybeAdvancePattern tape s (s.patternStart + s.patternHoldMs)
    let r := consumeRun tape n s'
    (r.1, idx :: r.2)

/-- Fold `checkTemperatureAndProtect` over a sequence of timed readings. -/
def tempRun (s : Ctrl) (xs : List (Nat × Option ℚ)) : Ctrl :=
  xs.foldl (fun s p => checkTemperatureAndProtect s p.1 p.2) s

/-- Stimulus whose temperature input (if any) stays below the overheat
trip threshold. -/
def evtTempSafe : Evt → Bool
  | .tick e =>
    match e.temp with
    | some t => decide (t < OVERHEAT_ON_C)
    | none => true
  | _ => true

/-- The pattern/playlist stepping state: active pattern, step counters of
every variant, and the playlist position. -/
def patState (s : Ctrl) :=
  (s.currentPattern, s.patIndex, s.lastPatStep, s.playPos, s.playOrder,
   s.altEvenOn, s.bounceIdx, s.bounceDir, s.gapPos, s.ppIdx, s.ppDir,
   s.blockWidth, s.owK, s.sparkleMask, s.burstMask, s.burstLeft,
   s.halfLeftOn, s.binCount, s.waveFilling, s.waveLevel)

/-- The C3 safety invariant: the interlock is clear, and All-ON implies
power is ON. -/
def allOnInv (s : Ctrl) : Prop :=
  s.overheatShutdown = false ∧ (s.allOnMode = true → s.relaysEnabled = true)

/-! ## Basic lemmas -/

theorem elapsed_self (t : Nat) (ht : t < 2 ^ 32) : elapsed t t = 0 := by
  unfold elapsed
  rw [Nat.mod_eq_of_lt ht]
  omega

theorem elapsed_eq_sub (now last : Nat) (h1 : last ≤ now) (h2 : now < 2 ^ 32) :
    elapsed now last = now - last := by
  unfold elapsed
  rw [Nat.mod_eq_of_lt (lt_of_le_of_lt h1 h2)]
  have h3 : now + 2 ^ 32 - last = (now - last) + 2 ^ 32 := by omega
  rw [h3, Nat.add_mod_right, Nat.mod_eq_of_lt (by omega)]

theorem frameBit_or_self (f i : Nat) : frameBit (f ||| (1 <<< i)) i = true := by
  simp [frameBit, Nat.one_shiftLeft, Nat.testBit_two_pow]

theorem frameBit_or_other (f i j : Nat) (h : j ≠ i) :
    frameBit (f ||| (1 <<< i)) j = frameBit f j := by
  simp [frameBit, Nat.one_shiftLeft, Nat.testBit_two_pow, Ne.symm h]

theorem frameBit_clear_self (f i : Nat) (hi : i < 8) :
    frameBit (f &&& (255 ^^^ (1 <<< i))) i = false := by
  rw [frameBit, Nat.one_shiftLeft, Nat.testBit_and]
  have h : Nat.testBit (255 ^^^ 2 ^ i) i = false := by
    interval_cases i <;> decide
  simp [h]

theorem frameBit_clear_other (f i j : Nat) (h : j ≠ i) (hi : i < 8) (hj : j < 8) :
    frameBit (f &&& (255 ^^^ (1 <<< i))) j = frameBit f j := by
  rw [frameBit, Nat.one_shiftLeft, Nat.testBit_and]
  have hb : Nat.testBit (255 ^^^ 2 ^ i) j = true := by
    interval_cases i <;> interval_cases j <;> simp_all <;> decide
  rw [hb, Bool.and_true, frameBit]

theorem setRelaySafe_shape (s : Ctrl) (now : Nat) (idx : Int) (w : Bool) :
    ∃ fr lc pn, (setRelaySafe s now idx w).1 =
      { s with currentFrame := fr, lastChangeMs := lc, pins := pn } := by
  simp only [setRelaySafe, writeRelayDirect]
  repeat' split
  all_goals exact ⟨_, _, _, rfl⟩

theorem relay_foldl_shape (g : Ctrl → Nat → Ctrl)
    (hg : ∀ s i, ∃ fr lc pn, g s i =
      { s with currentFrame := fr, lastChangeMs := lc, pins := pn })
    (L : List Nat) (s : Ctrl) :
    ∃ fr lc pn, L.foldl g s =
      { s with currentFrame := fr, lastChangeMs := lc, pins := pn } := by
  induction L generalizing s with
  | nil => exact ⟨_, _, _, rfl⟩
  | cons i L ih =>
    obtain ⟨f1, l1, p1, h1⟩ := hg s i
    obtain ⟨f2, l2, p2, h2⟩ := ih (g s i)
    exact ⟨f2, l2, p2, by rw [List.foldl_cons, h2, h1]⟩

theorem applyFrame_shape (s : Ctrl) (now frame : Nat) :
    ∃ fr lc pn, applyFrame s now frame =
      { s with currentFrame := fr, lastChangeMs := lc, pins := pn } :=
  relay_foldl_shape _ (fun s i => setRelaySafe_shape s now (Int.ofNat i) _) _ s

theorem forceAllRelaysOff_shape (s : Ctrl) (now : Nat) :
    ∃ fr lc pn, forceAllRelaysOff s now =
      { s with currentFrame := fr, lastChangeMs := lc, pins := pn } := by
  refine relay_foldl_shape _ (fun s i => ?_) _ s
  simp only [writeRelayDirect]
  split
  · exact ⟨_, _, _, rfl⟩
  · exact ⟨_, _, _, rfl⟩


theorem setRelaySafe_other (s : Ctrl) (now : Nat) (i : Nat) (w : Bool)
    (j : Nat) (hj : j < 8) (hi : i < 8) (h : j ≠ i) :
    frameBit (setRelaySafe s now ((i : Int)) w).1.currentFrame j
        = frameBit s.currentFrame j ∧
      (setRelaySafe s now ((i : Int)) w).1.lastChangeMs j = s.lastChangeMs j := by
  have hr : ¬(((i : Int)) < 0 ∨ 8 ≤ ((i : Int))) := by omega
  simp only [setRelaySafe, writeRelayDirect, if_neg hr, Int.toNat_natCast]
  repeat' split
  all_goals first
    | exact ⟨rfl, rfl⟩
    | (refine ⟨?_, Function.update_noteq h _ _⟩
       first
         | exact frameBit_or_other _ _ _ h
         | exact frameBit_clear_other _ _ _ h hi hj)

theorem setRelaySafe_cases (s : Ctrl) (now : Nat) (i : Nat) (w : Bool) (hi : i < 8) :
    (setRelaySafe s now ((i : Int)) w).1 = s ∨
      (minDwellMs ≤ elapsed now (s.lastChangeMs i) ∧
       (setRelaySafe s now ((i : Int)) w).1.lastChangeMs i = now ∧
       frameBit (setRelaySafe s now ((i : Int)) w).1.currentFrame i
         ≠ frameBit s.currentFrame i) := by
  have hr : ¬(((i : Int)) < 0 ∨ 8 ≤ ((i : Int))) := by omega
  simp only [setRelaySafe, writeRelayDirect, if_neg hr, Int.toNat_natCast]
  repeat' split
  all_goals first
    | exact Or.inl rfl
    | (refine Or.inr ⟨by omega, Function.update_same _ _ _, ?_⟩
       simp_all [frameBit_or_self, frameBit_clear_self, hi])

theorem setRelaySafe_out (s : Ctrl) (now : Nat) (idx : Int) (w : Bool)
    (h : idx < 0 ∨ 8 ≤ idx) : setRelaySafe s now idx w = (s, -2) := by
  simp only [setRelaySafe, if_pos h]

theorem relayFold_frozen (now : Nat) (hnow : now < 2 ^ 32) (fr : Nat)
    (L : List Nat) (j : Nat) (hj : j < 8) :
    ∀ s : Ctrl, (∀ x ∈ L, x < 8) → s.lastChangeMs j = now →
    (L.foldl (fun s i => (setRelaySafe s now ((i : Nat) : Int) (frameBit fr i)).1) s).lastChangeMs j = now ∧
    frameBit (L.foldl (fun s i => (setRelaySafe s now ((i : Nat) : Int) (frameBit fr i)).1) s).currentFrame j
      = frameBit s.currentFrame j := by
  induction L with
  | nil => exact fun s _ hlc => ⟨hlc, rfl⟩
  | cons i L ih =>
    intro s hL hlc
    have hi : i < 8 := hL i (List.mem_cons_self i L)
    have hL' : ∀ x ∈ L, x < 8 := fun x hx => hL x (List.mem_cons_of_mem i hx)
    rw [List.foldl_cons]
    by_cases hij : j = i
    · subst hij
      rcases setRelaySafe_cases s now j (frameBit fr j) hj with heq | ⟨hd, _, _⟩
      · rw [heq]
        exact ih s hL' hlc
      · rw [hlc, elapsed_self now hnow] at hd
        exact absurd hd (by simp [minDwellMs])
    · obtain ⟨hb, hl⟩ := setRelaySafe_other s now i (frameBit fr i) j hj hi hij
      obtain ⟨h1, h2⟩ := ih _ hL' (hl.trans hlc)
      exact ⟨h1, h2.trans hb⟩

theorem relayFold_channel (now : Nat) (hnow : now < 2 ^ 32) (fr : Nat)
    (L : List Nat) (j : Nat) (hj : j < 8) :
    ∀ s : Ctrl, (∀ x ∈ L, x < 8) →
    (frameBit (L.foldl (fun s i => (setRelaySafe s now ((i : Nat) : Int) (frameBit fr i)).1) s).currentFrame j
        = frameBit s.currentFrame j ∧
     (L.foldl (fun s i => (setRelaySafe s now ((i : Nat) : Int) (frameBit fr i)).1) s).lastChangeMs j
        = s.lastChangeMs j) ∨
    (minDwellMs ≤ elapsed now (s.lastChangeMs j) ∧
     (L.foldl (fun s i => (setRelaySafe s now ((i : Nat) : Int) (frameBit fr i)).1) s).lastChangeMs j = now ∧
     frameBit (L.foldl (fun s i => (setRelaySafe s now ((i : Nat) : Int) (frameBit fr i)).1) s).currentFrame j
       ≠ frameBit s.currentFrame j) := by
  induction L with
  | nil => exact fun s _ => Or.inl ⟨rfl, rfl⟩
  | cons i L ih =>
    intro s hL
    have hi : i < 8 := hL i (List.mem_cons_self i L)
    have hL' : ∀ x ∈ L, x < 8 := fun x hx => hL x (List.mem_cons_of_mem i hx)
    rw [List.foldl_cons]
    by_cases hij : j = i
    · subst hij
      rcases setRelaySafe_cases s now j (frameBit fr j) hj with heq | ⟨hd, hl, hb⟩
      · rw [heq]
        exact ih s hL'
      · obtain ⟨h1, h2⟩ := relayFold_frozen now hnow fr L j hj _ hL' hl
        exact Or.inr ⟨hd, h1, by rw [h2]; exact hb⟩
    · obtain ⟨hb, hl⟩ := setRelaySafe_other s now i (frameBit fr i) j hj hi hij
      rcases ih _ hL' with ⟨h1, h2⟩ | ⟨h1, h2, h3⟩
      · exact Or.inl ⟨h1.trans hb, h2.trans hl⟩
      · rw [hl] at h1
        rw [hb] at h3
        exact Or.inr ⟨h1, h2, h3⟩

theorem applyFrame_channel (s : Ctrl) (now : Nat) (hnow : now < 2 ^ 32)
    (fr : Nat) (j : Nat) (hj : j < 8) :
    (frameBit (applyFrame s now fr).currentFrame j = frameBit s.currentFrame j ∧
     (applyFrame s now fr).lastChangeMs j = s.lastChangeMs j) ∨
    (minDwellMs ≤ elapsed now (s.lastChangeMs j) ∧
     (applyFrame s now fr).lastChangeMs j = now ∧
     frameBit (applyFrame s now fr).currentFrame j ≠ frameBit s.currentFrame j) := by
  have h := relayFold_channel now hnow fr (List.range 8) j hj s
    (fun x hx => List.mem_range.mp hx)
  simpa only [applyFrame] using h

theorem setRelaySafe_channel_int (s : Ctrl) (now : Nat) (idx : Int) (w : Bool)
    (j : Nat) (hj : j < 8) :
    (frameBit (setRelaySafe s now idx w).1.currentFrame j = frameBit s.currentFrame j ∧
     (setRelaySafe s now idx w).1.lastChangeMs j = s.lastChangeMs j) ∨
    (minDwellMs ≤ elapsed now (s.lastChangeMs j) ∧
     (setRelaySafe s now idx w).1.lastChangeMs j = now ∧
     frameBit (setRelaySafe s now idx w).1.currentFrame j ≠ frameBit s.currentFrame j) := by
  by_cases hr : idx < 0 ∨ 8 ≤ idx
  · rw [setRelaySafe_out s now idx w hr]
    exact Or.inl ⟨rfl, rfl⟩
  · have hpos : 0 ≤ idx := by omega
    have hidx : idx = ((idx.toNat : Nat) : Int) := by omega
    have hlt : idx.toNat < 8 := by omega
    rw [hidx]
    by_cases hij : j = idx.toNat
    · subst hij
      rcases setRelaySafe_cases s now idx.toNat w hlt with heq | ⟨h1, h2, h3⟩
      · rw [heq]
        exact Or.inl ⟨rfl, rfl⟩
      · exact Or.inr ⟨h1, h2, h3⟩
    · exact Or.inl (setRelaySafe_other s now idx.toNat w j hj hlt hij)

theorem relayStep_channel (s : Ctrl) (t : Nat) (ht : t < 2 ^ 32) (o : RelayOp)
    (j : Nat) (hj : j < 8) :
    (frameBit (relayStep s (t, o)).currentFrame j = frameBit s.currentFrame j ∧
     (relayStep s (t, o)).lastChangeMs j = s.lastChangeMs j) ∨
    (minDwellMs ≤ elapsed t (s.lastChangeMs j) ∧
     (relayStep s (t, o)).lastChangeMs j = t ∧
     frameBit (relayStep s (t, o)).currentFrame j ≠ frameBit s.currentFrame j) := by
  cases o with
  | set idx w => exact setRelaySafe_channel_int s t idx w j hj
  | frame f => exact applyFrame_channel s t ht f j hj
  | flags a b => exact Or.inl ⟨rfl, rfl⟩

theorem dwell_trace (j : Nat) (hj : j < 8) (ops : List (Nat × RelayOp)) :
    ∀ s : Ctrl,
      (∀ op ∈ ops, op.1 < 2 ^ 32) →
      List.Pairwise (· ≤ ·) (ops.map Prod.fst) →
      (∀ op ∈ ops, s.lastChangeMs j ≤ op.1) →
      List.Chain' (fun a b => a + minDwellMs ≤ b) (toggleTimes j s ops) ∧
      ∀ t ∈ toggleTimes j s ops, s.lastChangeMs j + minDwellMs ≤ t := by
  induction ops with
  | nil =>
    intro s _ _ _
    exact ⟨List.chain'_nil, by simp [toggleTimes]⟩
  | cons op rest ih =>
    intro s hbound hpw hlc
    obtain ⟨t, o⟩ := op
    have ht32 : t < 2 ^ 32 := hbound (t, o) (List.mem_cons_self _ _)
    have hbound' : ∀ op ∈ rest, op.1 < 2 ^ 32 :=
      fun op h => hbound op (List.mem_cons_of_mem _ h)
    have hpw' : List.Pairwise (· ≤ ·) (rest.map Prod.fst) :=
      (List.pairwise_cons.mp hpw).2
    have hhead : ∀ b ∈ rest.map Prod.fst, t ≤ b := (List.pairwise_cons.mp hpw).1
    rcases relayStep_channel s t ht32 o j hj with ⟨hb, hl⟩ | ⟨hd, hl, hb⟩
    · rw [toggleTimes, if_pos hb]
      obtain ⟨hc, hall⟩ := ih (relayStep s (t, o)) hbound' hpw'
        (fun op h => by rw [hl]; exact hlc op (List.mem_cons_of_mem _ h))
      refine ⟨hc, fun t' ht' => ?_⟩
      have := hall t' ht'
      rw [hl] at this
      exact this
    · rw [toggleTimes, if_neg hb]
      have hlc_le : s.lastChangeMs j ≤ t := hlc (t, o) (List.mem_cons_self _ _)
      have hdw : s.lastChangeMs j + minDwellMs ≤ t := by
        rw [elapsed_eq_sub t _ hlc_le ht32] at hd
        omega
      obtain ⟨hc, hall⟩ := ih (relayStep s (t, o)) hbound' hpw'
        (fun op h => by rw [hl]; exact hhead op.1 (List.mem_map_of_mem Prod.fst h))
      refine ⟨List.chain'_cons'.mpr ⟨fun b hb2 => ?_, hc⟩, fun t' ht' => ?_⟩
      · have := hall b (List.mem_of_mem_head? hb2)
        rw [hl] at this
        exact this
      · rcases List.mem_cons.mp ht' with h | h
        · omega
        · have := hall t' h
          rw [hl] at this
          omega

theorem setRelaySafe_suppress (s : Ctrl) (now : Nat) (i : Nat) (w : Bool)
    (hi : i < 8)
    (hbit : ¬(frameBit s.currentFrame i =
      (if s.relaysEnabled then (if s.overheatShutdown then false else w) else false)))
    (hdw : elapsed now (s.lastChangeMs i) < minDwellMs) :
    setRelaySafe s now ((i : Int)) w = (s, -1) := by
  have hr : ¬(((i : Int)) < 0 ∨ 8 ≤ ((i : Int))) := by omega
  simp only [setRelaySafe, if_neg hr, Int.toNat_natCast]
  rw [if_neg hbit, if_pos hdw]

theorem forceFold_lastChange (now : Nat) (L : List Nat) (hL : ∀ x ∈ L, x < 8) :
    ∀ (s : Ctrl) (b : Nat),
      (L.foldl
        (fun s i =>
          let s1 := writeRelayDirect s (i : Nat) false
          { s1 with
            currentFrame := s1.currentFrame &&& (255 ^^^ (1 <<< i)),
            lastChangeMs := Function.update s1.lastChangeMs i now }) s).lastChangeMs b
      = if b ∈ L then now else s.lastChangeMs b := by
  induction L with
  | nil => intro s b; simp
  | cons i L ih =>
    intro s b
    have hi : i < 8 := hL i (List.mem_cons_self i L)
    have hri : ¬(((i : Nat) : Int) < 0 ∨ 8 ≤ ((i : Nat) : Int)) := by omega
    have hL' : ∀ x ∈ L, x < 8 := fun x hx => hL x (List.mem_cons_of_mem i hx)
    rw [List.foldl_cons, ih hL']
    by_cases hbL : b ∈ L
    · simp [hbL]
    · simp only [writeRelayDirect, if_neg hri]
      by_cases hbi : b = i
      · subst hbi
        simp [hbL, Function.update_same]
      · simp [hbL, hbi, Function.update_noteq hbi]

theorem forceFold_pins (now : Nat) (L : List Nat) (hL : ∀ x ∈ L, x < 8) :
    ∀ (s : Ctrl) (b : Nat),
      (L.foldl
        (fun s i =>
          let s1 := writeRelayDirect s (i : Nat) false
          { s1 with
            currentFrame := s1.currentFrame &&& (255 ^^^ (1 <<< i)),
            lastChangeMs := Function.update s1.lastChangeMs i now }) s).pins b
      = if b ∈ L then false else s.pins b := by
  induction L with
  | nil => intro s b; simp
  | cons i L ih =>
    intro s b
    have hi : i < 8 := hL i (List.mem_cons_self i L)
    have hri : ¬(((i : Nat) : Int) < 0 ∨ 8 ≤ ((i : Nat) : Int)) := by omega
    have hL' : ∀ x ∈ L, x < 8 := fun x hx => hL x (List.mem_cons_of_mem i hx)
    rw [List.foldl_cons, ih hL']
    by_cases hbL : b ∈ L
    · simp [hbL]
    · simp only [writeRelayDirect, if_neg hri, RELAY_ACTIVE_LOW]
      by_cases hbi : b = i
      · subst hbi
        simp [hbL, Function.update_same]
      · simp [hbL, hbi, Function.update_noteq hbi]

theorem forceFold_frame_false (now : Nat) (L : List Nat) :
    ∀ (s : Ctrl) (b : Nat),
      frameBit s.currentFrame b = false →
      frameBit (L.foldl
        (fun s i =>
          let s1 := writeRelayDirect s (i : Nat) false
          { s1 with
            currentFrame := s1.currentFrame &&& (255 ^^^ (1 <<< i)),
            lastChangeMs := Function.update s1.lastChangeMs i now }) s).currentFrame b
      = false := by
  induction L with
  | nil => exact fun s b h => h
  | cons i L ih =>
    intro s b h
    rw [List.foldl_cons]
    refine ih _ b ?_
    have h' : Nat.testBit s.currentFrame b = false := h
    simp only [writeRelayDirect]
    split
    · simp [frameBit, Nat.testBit_and, h']
    · simp [frameBit, Nat.testBit_and, h']

theorem frameBit_clear_kill (f i b : Nat) (hi : i < 8) (h : b = i ∨ 8 ≤ b) :
    frameBit (f &&& (255 ^^^ (1 <<< i))) b = false := by
  rcases h with rfl | h8
  · exact frameBit_clear_self f b hi
  · rw [frameBit, Nat.one_shiftLeft, Nat.testBit_and]
    have hx : Nat.testBit (255 ^^^ 2 ^ i) b = false := by
      rw [Nat.testBit_xor]
      have h255 : Nat.testBit 255 b = false := by
        have hlt : (255 : Nat) < 2 ^ b :=
          lt_of_lt_of_le (by norm_num) (Nat.pow_le_pow_right (by norm_num) h8)
        exact Nat.testBit_lt_two_pow hlt
      have h2 : Nat.testBit (2 ^ i) b = false := by
        rw [Nat.testBit_two_pow]
        simp only [decide_eq_false_iff_not]
        omega
      rw [h255, h2]
      rfl
    simp [hx]

theorem forceFold_frame_clears (now : Nat) (L : List Nat) (hL : ∀ x ∈ L, x < 8) :
    ∀ (s : Ctrl) (b : Nat), (b ∈ L ∨ (8 ≤ b ∧ L ≠ [])) →
      frameBit (L.foldl
        (fun s i =>
          let s1 := writeRelayDirect s (i : Nat) false
          { s1 with
            currentFrame := s1.currentFrame &&& (255 ^^^ (1 <<< i)),
            lastChangeMs := Function.update s1.lastChangeMs i now }) s).currentFrame b
      = false := by
  induction L with
  | nil =>
    intro s b h
    rcases h with h | ⟨_, h⟩
    · exact absurd h (List.not_mem_nil b)
    · exact absurd rfl h
  | cons i L ih =>
    intro s b h
    have hi : i < 8 := hL i (List.mem_cons_self i L)
    have hL2 : ∀ x ∈ L, x < 8 := fun x hx => hL x (List.mem_cons_of_mem i hx)
    rw [List.foldl_cons]
    by_cases hhit : b = i ∨ 8 ≤ b
    · apply forceFold_frame_false
      simp only [writeRelayDirect]
      split
      · exact frameBit_clear_kill _ i b hi hhit
      · exact frameBit_clear_kill _ i b hi hhit
    · push_neg at hhit
      rcases h with h | ⟨h8, _⟩
      · rcases List.mem_cons.mp h with hbi | hbL
        · exact absurd hbi hhit.1
        · exact ih hL2 _ b (Or.inl hbL)
      · exact absurd h8 (by omega)

theorem forceAllRelaysOff_spec (s : Ctrl) (now : Nat) :
    (forceAllRelaysOff s now).currentFrame = 0 ∧
    ∀ j, j < 8 →
      (forceAllRelaysOff s now).lastChangeMs j = now ∧
      (forceAllRelaysOff s now).pins j = false := by
  constructor
  · apply Nat.eq_of_testBit_eq
    intro b
    rw [Nat.zero_testBit]
    show frameBit (forceAllRelaysOff s now).currentFrame b = false
    simp only [forceAllRelaysOff]
    apply forceFold_frame_clears now (List.range 8) (fun x hx => List.mem_range.mp hx)
    by_cases hb : b < 8
    · exact Or.inl (List.mem_range.mpr hb)
    · exact Or.inr ⟨by omega, by decide⟩
  · intro j hj
    constructor
    · simp only [forceAllRelaysOff]
      rw [forceFold_lastChange now (List.range 8) (fun x hx => List.mem_range.mp hx)]
      simp [List.mem_range.mpr hj]
    · simp only [forceAllRelaysOff]
      rw [forceFold_pins now (List.range 8) (fun x hx => List.mem_range.mp hx)]
      simp [List.mem_range.mpr hj]

/-- C1: On any stimulus sequence through `setRelaySafe`/`applyFrame`
(with arbitrary interleaved changes of the overheat/power gates), the
toggle times of each channel are spaced at least `minDwellMs` apart; a
request inside the dwell window returns `-1` leaving the state unchanged
(suppressed, not queued); and `forceAllRelaysOff` turns everything off
unconditionally, regardless of dwell, overheat or power state. -/
theorem C1_dwell_safety :
    (∀ (j : Nat) (ops : List (Nat × RelayOp)) (s : Ctrl),
      j < 8 →
      (∀ op ∈ ops, op.1 < 2 ^ 32) →
      List.Pairwise (· ≤ ·) (ops.map Prod.fst) →
      (∀ op ∈ ops, s.lastChangeMs j ≤ op.1) →
      List.Chain' (fun a b => a + minDwellMs ≤ b) (toggleTimes j s ops)) ∧
    (∀ (s : Ctrl) (now : Nat) (i : Nat) (w : Bool), i < 8 →
      ¬(frameBit s.currentFrame i =
        (if s.relaysEnabled then (if s.overheatShutdown then false else w) else false)) →
      elapsed now (s.lastChangeMs i) < minDwellMs →
      setRelaySafe s now ((i : Int)) w = (s, -1)) ∧
    (∀ (s : Ctrl) (now : Nat),
      (forceAllRelaysOff s now).currentFrame = 0 ∧
      ∀ j, j < 8 → (forceAllRelaysOff s now).pins j = false) := by
  refine ⟨?_, ?_, ?_⟩
  · intro j ops s hj h1 h2 h3
    exact (dwell_trace j hj ops s h1 h2 h3).1
  · intro s now i w hi hb hd
    exact setRelaySafe_suppress s now i w hi hb hd
  · intro s now
    obtain ⟨h1, h2⟩ := forceAllRelaysOff_spec s now
    exact ⟨h1, fun j hj => (h2 j hj).2⟩

/-- Concrete instantiation of `C1_dwell_safety`: a three-request trace on
channel 2, one suppressed write, one unconditional shutdown. -/
theorem C1_dwell_safety_witness :
    List.Chain' (fun a b => a + minDwellMs ≤ b)
      (toggleTimes 2 { initCtrl with relaysEnabled := true }
        [(300, RelayOp.set 2 true), (350, RelayOp.frame 255),
         (600, RelayOp.set 2 false)]) ∧
    setRelaySafe
        { initCtrl with relaysEnabled := true, lastChangeMs := fun _ => 250 }
        300 ((2 : Nat) : Int) true
      = ({ initCtrl with relaysEnabled := true, lastChangeMs := fun _ => 250 }, -1) ∧
    (forceAllRelaysOff initCtrl 777).currentFrame = 0 :=
  ⟨C1_dwell_safety.1 2 _ _ (by decide) (by decide) (by decide) (by decide),
   C1_dwell_safety.2.1 _ 300 2 true (by decide) (by decide) (by decide),
   (C1_dwell_safety.2.2 initCtrl 777).1⟩

/-- C10: `setRelaySafe` with a channel index outside `0..7` returns `-2`
and changes nothing (state, dwell stamps, outputs); the low-level write
helper likewise ignores out-of-range indices. -/
theorem C10_bad_index :
    ∀ (s : Ctrl) (now : Nat) (idx : Int) (w : Bool),
      (idx < 0 ∨ 8 ≤ idx) →
      setRelaySafe s now idx w = (s, -2) ∧
      ∀ b, writeRelayDirect s idx b = s := by
  intro s now idx w h
  refine ⟨setRelaySafe_out s now idx w h, fun b => ?_⟩
  simp only [writeRelayDirect, if_pos h]

/-- Concrete instantiation of `C10_bad_index` at indices 8 and -1. -/
theorem C10_bad_index_witness :
    setRelaySafe initCtrl 0 8 true = (initCtrl, -2) ∧
    writeRelayDirect initCtrl (-1) true = initCtrl :=
  ⟨(C10_bad_index initCtrl 0 8 true (by decide)).1,
   (C10_bad_index initCtrl 0 (-1) true (by decide)).2 true⟩

/-- C8: `handleSetSpeed` stores the requested value clamped to
`[minDwellMs, 2000]`, the status snapshot reports exactly the stored
value, and in particular `setSpeed(50)` reads back as 200, not 50. -/
theorem C8_speed_roundtrip :
    (∀ (v : Int) (s : Ctrl),
      (handleSetSpeed v s).patternSpeed = min (max v (minDwellMs : Int)) 2000) ∧
    (∀ (s : Ctrl) (t : Option (Nat × Nat)),
      (handleStatusJSON t s).speed_ms = s.patternSpeed) ∧
    (∀ (s : Ctrl) (t : Option (Nat × Nat)),
      (handleStatusJSON t (handleSetSpeed 50 s)).speed_ms = 200 ∧
      (handleStatusJSON t (handleSetSpeed 50 s)).speed_ms ≠ 50) := by
  refine ⟨?_, fun s t => rfl, fun s t =>
    ⟨rfl, by rw [show (handleStatusJSON t (handleSetSpeed 50 s)).speed_ms = 200 from rfl]; decide⟩⟩
  intro v s
  simp only [handleSetSpeed, minDwellMs]
  rcases lt_or_ge v 200 with h | h <;>
    simp [h, max_def, min_def, not_lt.mpr] <;> omega

/-- C4: `computeShouldBeOn` is the half-open daily window check (wrapping
past midnight when `on > off`), falls back to the current power state
when wall-clock time is unavailable, and meets all the spec's sample
points for 18:00–22:00 and the wrap window 22:00–06:00. -/
theorem C4_schedule_window :
    (∀ s : Ctrl, computeShouldBeOn none s = s.relaysEnabled) ∧
    (∀ (s : Ctrl) (h mi : Nat),
      (computeShouldBeOn (some (h, mi)) s = true ↔
        ((s.on_h * 60 + s.on_m ≤ s.off_h * 60 + s.off_m ∧
          s.on_h * 60 + s.on_m ≤ (h : Int) * 60 + mi ∧
          (h : Int) * 60 + mi < s.off_h * 60 + s.off_m) ∨
         (s.off_h * 60 + s.off_m < s.on_h * 60 + s.on_m ∧
          (s.on_h * 60 + s.on_m ≤ (h : Int) * 60 + mi ∨
           (h : Int) * 60 + mi < s.off_h * 60 + s.off_m))))) ∧
    (computeShouldBeOn (some (18, 0)) initCtrl = true ∧
     computeShouldBeOn (some (19, 0)) initCtrl = true ∧
     computeShouldBeOn (some (17, 59)) initCtrl = false ∧
     computeShouldBeOn (some (22, 0)) initCtrl = false ∧
     computeShouldBeOn (some (23, 0)) initCtrl = false) ∧
    (computeShouldBeOn (some (23, 30)) { initCtrl with on_h := 22, off_h := 6 } = true ∧
     computeShouldBeOn (some (2, 0)) { initCtrl with on_h := 22, off_h := 6 } = true ∧
     computeShouldBeOn (some (12, 0)) { initCtrl with on_h := 22, off_h := 6 } = false) := by
  refine ⟨fun s => rfl, ?_, by decide, by decide⟩
  intro s h mi
  simp only [computeShouldBeOn]
  split
  · simp only [decide_eq_true_iff]
    omega
  · simp only [decide_eq_true_iff]
    omega

/-- C2: the overheat interlock is a hysteresis latch: a due sample at or
above 50 °C trips it, forces every channel off and disables power;
samples above 45 °C (such as 48 and 46) leave it latched; a sample at or
below 45 °C clears it without re-enabling power; and the concrete
50/48/46/45 scenario behaves exactly so. -/
theorem C2_overheat_hysteresis :
    (∀ (s : Ctrl) (now : Nat) (t : ℚ),
      TEMP_READ_INTERVAL_MS ≤ elapsed now s.lastTempReadMs →
      s.overheatShutdown = false → OVERHEAT_ON_C ≤ t →
      (checkTemperatureAndProtect s now (some t)).overheatShutdown = true ∧
      (checkTemperatureAndProtect s now (some t)).relaysEnabled = false ∧
      (checkTemperatureAndProtect s now (some t)).currentFrame = 0 ∧
      ∀ j, j < 8 → (checkTemperatureAndProtect s now (some t)).pins j = false) ∧
    (∀ (s : Ctrl) (now : Nat) (t : ℚ),
      TEMP_READ_INTERVAL_MS ≤ elapsed now s.lastTempReadMs →
      s.overheatShutdown = true → OVERHEAT_OFF_C < t →
      (checkTemperatureAndProtect s now (some t)).overheatShutdown = true ∧
      (checkTemperatureAndProtect s now (some t)).relaysEnabled = s.relaysEnabled) ∧
    (∀ (s : Ctrl) (now : Nat) (t : ℚ),
      TEMP_READ_INTERVAL_MS ≤ elapsed now s.lastTempReadMs →
      s.overheatShutdown = true → t ≤ OVERHEAT_OFF_C →
      (checkTemperatureAndProtect s now (some t)).overheatShutdown = false ∧
      (checkTemperatureAndProtect s now (some t)).relaysEnabled = s.relaysEnabled) ∧
    ((tempRun { initCtrl with relaysEnabled := true }
        [(60001, some 50)]).overheatShutdown = true ∧
     (tempRun { initCtrl with relaysEnabled := true }
        [(60001, some 50)]).relaysEnabled = false ∧
     (tempRun { initCtrl with relaysEnabled := true }
        [(60001, some 50)]).currentFrame = 0 ∧
     (tempRun { initCtrl with relaysEnabled := true }
        [(60001, some 50), (120002, some 48)]).overheatShutdown = true ∧
     (tempRun { initCtrl with relaysEnabled := true }
        [(60001, some 50), (120002, some 48), (180003, some 46)]).overheatShutdown = true ∧
     (tempRun { initCtrl with relaysEnabled := true }
        [(60001, some 50), (120002, some 48), (180003, some 46),
         (240004, some 45)]).overheatShutdown = false ∧
     (tempRun { initCtrl with relaysEnabled := true }
        [(60001, some 50), (120002, some 48), (180003, some 46),
         (240004, some 45)]).relaysEnabled = false) := by
  have hmain : ∀ (s : Ctrl) (now : Nat) (t : ℚ),
      TEMP_READ_INTERVAL_MS ≤ elapsed now s.lastTempReadMs →
      checkTemperatureAndProtect s now (some t) =
        (let s1 := { s with lastTempReadMs := now, enclosureTemp := some t }
         if s.overheatShutdown = false ∧ OVERHEAT_ON_C ≤ t then
           { forceAllRelaysOff { s1 with overheatShutdown := true } now with
             relaysEnabled := false }
         else if s.overheatShutdown = true ∧ t ≤ OVERHEAT_OFF_C then
           { s1 with overheatShutdown := false }
         else s1) := by
    intro s now t h
    simp only [checkTemperatureAndProtect,
      if_neg (by omega : ¬(elapsed now s.lastTempReadMs < TEMP_READ_INTERVAL_MS))]
  refine ⟨?_, ?_, ?_, by decide⟩
  · intro s now t h1 h2 h3
    obtain ⟨h4, h5⟩ := forceAllRelaysOff_spec
      { s with lastTempReadMs := now, enclosureTemp := some t, overheatShutdown := true } now
    obtain ⟨fr, lc, pn, hsh⟩ := forceAllRelaysOff_shape
      { s with lastTempReadMs := now, enclosureTemp := some t, overheatShutdown := true } now
    refine ⟨?_, ?_, ?_, ?_⟩ <;>
      rw [hmain s now t h1] <;>
      simp only [if_pos (And.intro h2 h3)]
    · rw [hsh]
    · exact h4
    · intro j hj
      exact (h5 j hj).2
  · intro s now t h1 h2 h3
    rw [hmain s now t h1,
      if_neg (fun hc => by rw [h2] at hc; exact absurd hc.1 (by decide)),
      if_neg (fun hc => absurd hc.2 (not_le.mpr h3))]
    exact ⟨h2, rfl⟩
  · intro s now t h1 h2 h3
    rw [hmain s now t h1,
      if_neg (fun hc => by rw [h2] at hc; exact absurd hc.1 (by decide)),
      if_pos (And.intro h2 h3)]
    exact ⟨rfl, rfl⟩

/-- Concrete instantiation of `C2_overheat_hysteresis`: trip at 50 °C on
a due sample forces shutdown. -/
theorem C2_overheat_hysteresis_witness :
    (checkTemperatureAndProtect { initCtrl with relaysEnabled := true }
      60001 (some 50)).overheatShutdown = true ∧
    (checkTemperatureAndProtect { initCtrl with relaysEnabled := true }
      60001 (some 50)).relaysEnabled = false := by
  have h := C2_overheat_hysteresis.1 { initCtrl with relaysEnabled := true }
    60001 50 (by decide) (by decide) (by decide)
  exact ⟨h.1, h.2.1⟩

theorem bwIter_width (n : Nat) :
    ∀ s : Ctrl, (bwIter n (frame_BLOCK_WIPE s).1).blockWidth
      = (s.blockWidth + 1 + n) % 9 := by
  induction n with
  | zero =>
    intro s
    simp [bwIter, frame_BLOCK_WIPE]
  | succ n ih =>
    intro s
    show (bwIter n (frame_BLOCK_WIPE (frame_BLOCK_WIPE s).1).1).blockWidth = _
    rw [ih (frame_BLOCK_WIPE s).1]
    show ((s.blockWidth + 1) % 9 + 1 + n) % 9 = (s.blockWidth + 1 + (n + 1)) % 9
    omega

theorem bwIter_width_init (n : Nat) : (bwIter n initCtrl).blockWidth = n % 9 := by
  cases n with
  | zero => rfl
  | succ n =>
    show (bwIter n (frame_BLOCK_WIPE initCtrl).1).blockWidth = _
    rw [bwIter_width n initCtrl]
    show (0 + 1 + n) % 9 = (n + 1) % 9
    omega

/-- C6 (amended): from fresh state the `(n+1)`-st BLOCK_WIPE frame is the
low-`w` mask for `w = (n+1) % 9` (the width is incremented before the
frame is emitted), so the produced sequence is
`0x01, 0x03, ..., 0xFF, 0x00` repeating — `0x00` is the ninth frame of
each cycle, not the first. -/
theorem C6_block_wipe_sequence :
    (∀ n : Nat, bwFrameAt n initCtrl =
      if (n + 1) % 9 = 0 then 0 else (1 <<< ((n + 1) % 9)) - 1) ∧
    bwFrames 18 initCtrl =
      [1, 3, 7, 15, 31, 63, 127, 255, 0, 1, 3, 7, 15, 31, 63, 127, 255, 0] := by
  refine ⟨?_, by decide⟩
  intro n
  show (frame_BLOCK_WIPE (bwIter n initCtrl)).2 = _
  simp only [frame_BLOCK_WIPE, bwIter_width_init n]
  have heq : (n % 9 + 1) % 9 = (n + 1) % 9 := by omega
  rw [heq]

/-- C6 counterexample: the claimed sequence starts `0x00, 0x01, ...`, but
the first frame produced from fresh state is `0x01` (width is bumped to 1
before the mask is returned); `0x00` is frame number 9. -/
theorem C6_block_wipe_counterexample :
    bwFrameAt 0 initCtrl = 1 ∧ bwFrameAt 8 initCtrl = 0 ∧ (1 : Nat) ≠ 0 := by
  decide

theorem patIter_chase (tape : RTape) (n : Nat) :
    ∀ s : Ctrl, s.currentPattern = CHASE → s.patIndex < 8 →
      (patIter tape n s).currentPattern = CHASE ∧
      (patIter tape n s).patIndex = (s.patIndex + n) % 8 := by
  induction n with
  | zero =>
    intro s h hlt
    refine ⟨h, ?_⟩
    rw [Nat.add_zero, Nat.mod_eq_of_lt hlt]
    rfl
  | succ n ih =>
    intro s h hlt
    have hstep : (nextPatternFrame tape s).1 = { s with patIndex := (s.patIndex + 1) % 8 } := by
      unfold nextPatternFrame
      rw [h]
    show (patIter tape n (nextPatternFrame tape s).1).currentPattern = CHASE ∧
      (patIter tape n (nextPatternFrame tape s).1).patIndex = _
    rw [hstep]
    obtain ⟨h1, h2⟩ := ih { s with patIndex := (s.patIndex + 1) % 8 } h (Nat.mod_lt _ (by omega))
    refine ⟨h1, ?_⟩
    rw [h2]
    show ((s.patIndex + 1) % 8 + n) % 8 = (s.patIndex + (n + 1)) % 8
    omega

/-- C5 (amended): `startPattern` resets only the shared step index
`patIndex` and the step/hold timers; every variant-local static counter
keeps its previous value across the switch.  Consequently only `CHASE`
(whose sole state is `patIndex`) restarts from its initial condition:
after a switch to `CHASE` the `(n+1)`-st frame is `1 << (n % 8)`, the
fresh-boot sequence. -/
theorem C5_pattern_switch_reset :
    (∀ (now : Nat) (p : Pattern) (s : Ctrl),
      (startPattern now p s).currentPattern = p ∧
      (startPattern now p s).patIndex = 0 ∧
      (startPattern now p s).lastPatStep = 0 ∧
      (startPattern now p s).patternStart = now ∧
      (startPattern now p s).altEvenOn = s.altEvenOn ∧
      (startPattern now p s).bounceIdx = s.bounceIdx ∧
      (startPattern now p s).bounceDir = s.bounceDir ∧
      (startPattern now p s).gapPos = s.gapPos ∧
      (startPattern now p s).ppIdx = s.ppIdx ∧
      (startPattern now p s).ppDir = s.ppDir ∧
      (startPattern now p s).blockWidth = s.blockWidth ∧
      (startPattern now p s).owK = s.owK ∧
      (startPattern now p s).sparkleMask = s.sparkleMask ∧
      (startPattern now p s).burstMask = s.burstMask ∧
      (startPattern now p s).burstLeft = s.burstLeft ∧
      (startPattern now p s).halfLeftOn = s.halfLeftOn ∧
      (startPattern now p s).binCount = s.binCount ∧
      (startPattern now p s).waveFilling = s.waveFilling ∧
      (startPattern now p s).waveLevel = s.waveLevel) ∧
    (∀ (tape : RTape) (now : Nat) (s : Ctrl) (n : Nat),
      patFrameAt tape n (startPattern now CHASE s) = 1 <<< (n % 8)) := by
  refine ⟨fun now p s =>
    ⟨rfl, rfl, rfl, rfl, rfl, rfl, rfl, rfl, rfl, rfl, rfl, rfl, rfl, rfl,
     rfl, rfl, rfl, rfl, rfl⟩, ?_⟩
  intro tape now s n
  obtain ⟨h1, h2⟩ := patIter_chase tape n (startPattern now CHASE s) rfl
    (by show (0 : Nat) < 8; decide)
  show (nextPatternFrame tape (patIter tape n (startPattern now CHASE s))).2 = _
  unfold nextPatternFrame
  rw [h1]
  show 1 <<< (patIter tape n (startPattern now CHASE s)).patIndex = 1 <<< (n % 8)
  rw [h2]
  show 1 <<< ((0 + n) % 8) = 1 <<< (n % 8)
  rw [Nat.zero_add]

/-- C5 counterexample: run BLOCK_WIPE for four steps (static `width`
reaches 4), switch to BLOCK_WIPE via `startPattern`: the first frame
produced is `0x1F`, not the fresh-boot first frame `0x01` — the switch
did not reset the variant's local counter. -/
theorem C5_pattern_switch_counterexample :
    patFrameAt tapeZ 0 (startPattern 99999 BLOCK_WIPE
      (bwIter 4 { initCtrl with currentPattern := BLOCK_WIPE })) = 31 ∧
    patFrameAt tapeZ 0 (startPattern 0 BLOCK_WIPE initCtrl) = 1 ∧
    (31 : Nat) ≠ 1 := by
  decide

theorem handleSetSchedule_fields (onS offS : List Char) (s : Ctrl) :
    ((handleSetSchedule onS offS s).on_h,
     (handleSetSchedule onS offS s).on_m) =
      (match parseTimeStr onS with
       | some (h, m) => (h, m)
       | none => (s.on_h, s.on_m)) ∧
    ((handleSetSchedule onS offS s).off_h,
     (handleSetSchedule onS offS s).off_m) =
      (match parseTimeStr offS with
       | some (h, m) => (h, m)
       | none => (s.off_h, s.off_m)) := by
  unfold handleSetSchedule
  cases parseTimeStr onS with
  | none =>
    cases parseTimeStr offS with
    | none => exact ⟨rfl, rfl⟩
    | some q =>
      obtain ⟨a, b⟩ := q
      exact ⟨rfl, rfl⟩
  | some p =>
    obtain ⟨a, b⟩ := p
    cases parseTimeStr offS with
    | none => exact ⟨rfl, rfl⟩
    | some q =>
      obtain ⟨a2, b2⟩ := q
      exact ⟨rfl, rfl⟩

/-- C7 (amended): a time string is rejected — leaving its schedule field
untouched — exactly when it has no colon or its leading-integer hour and
minute parses fall outside 0..23 / 0..59; any accepted string stores an
hour in 0..23 and a minute in 0..59.  However, because `toInt` parses
non-numeric text as 0, strings such as `"ab:cd"` are *accepted* as 00:00
rather than rejected. -/
theorem C7_schedule_validation :
    (∀ (onS offS : List Char) (s : Ctrl),
      parseTimeStr onS = none →
      (handleSetSchedule onS offS s).on_h = s.on_h ∧
      (handleSetSchedule onS offS s).on_m = s.on_m) ∧
    (∀ (onS offS : List Char) (s : Ctrl),
      parseTimeStr offS = none →
      (handleSetSchedule onS offS s).off_h = s.off_h ∧
      (handleSetSchedule onS offS s).off_m = s.off_m) ∧
    (∀ (l : List Char) (h m : Int),
      parseTimeStr l = some (h, m) →
      0 ≤ h ∧ h ≤ 23 ∧ 0 ≤ m ∧ m ≤ 59) ∧
    (∀ (onS offS : List Char) (s : Ctrl) (h m : Int),
      parseTimeStr onS = some (h, m) →
      (handleSetSchedule onS offS s).on_h = h ∧
      (handleSetSchedule onS offS s).on_m = m) ∧
    (∀ (onS offS : List Char) (s : Ctrl) (h m : Int),
      parseTimeStr offS = some (h, m) →
      (handleSetSchedule onS offS s).off_h = h ∧
      (handleSetSchedule onS offS s).off_m = m) := by
  refine ⟨?_, ?_, ?_, ?_, ?_⟩
  · intro onS offS s hn
    have h1 := (handleSetSchedule_fields onS offS s).1
    rw [hn, Prod.mk.injEq] at h1
    exact h1
  · intro onS offS s hn
    have h1 := (handleSetSchedule_fields onS offS s).2
    rw [hn, Prod.mk.injEq] at h1
    exact h1
  · intro l h m hp
    unfold parseTimeStr at hp
    simp only [] at hp
    rcases hcolon : indexOfCh ':' (trimChars l) with _ | c
    · rw [hcolon] at hp
      simp at hp
    · rw [hcolon] at hp
      simp only [] at hp
      split at hp
      · simp at hp
      · rename_i hcond
        rw [Option.some.injEq, Prod.mk.injEq] at hp
        obtain ⟨hh, hm⟩ := hp
        subst hh
        subst hm
        omega
  · intro onS offS s h m ho
    have h1 := (handleSetSchedule_fields onS offS s).1
    rw [ho, Prod.mk.injEq] at h1
    exact h1
  · intro onS offS s h m ho
    have h1 := (handleSetSchedule_fields onS offS s).2
    rw [ho, Prod.mk.injEq] at h1
    exact h1

/-- Concrete instantiation of `C7_schedule_validation`: `"24:00"` is
rejected leaving the field unchanged, and an accepted parse (`"18:00"`)
is in range. -/
theorem C7_schedule_validation_witness :
    (handleSetSchedule ("24:00".data) [] initCtrl).on_h = initCtrl.on_h ∧
    (0 ≤ (18 : Int) ∧ (18 : Int) ≤ 23 ∧ 0 ≤ (0 : Int) ∧ (0 : Int) ≤ 59) :=
  ⟨(C7_schedule_validation.1 ("24:00".data) [] initCtrl (by decide)).1,
   C7_schedule_validation.2.2.1 ("18:00".data) 18 0 (by decide)⟩

/-- C7 counterexample: `"ab:cd"` is malformed, yet `parseTimeStr` accepts
it as 00:00 (`toInt` turns non-numeric text into 0), so the set-schedule
command overwrites the ON field (18:00 from defaults) with 00:00 instead
of rejecting the request. -/
theorem C7_malformed_accepted :
    parseTimeStr ("ab:cd".data) = some (0, 0) ∧
    (handleSetSchedule ("ab:cd".data) [] initCtrl).on_h = 0 ∧
    (handleSetSchedule ("ab:cd".data) [] initCtrl).on_m = 0 ∧
    initCtrl.on_h = 18 := by
  decide

theorem headSwap_perm (c : Nat) :
    ∀ (cs : List Nat) (m : Nat), m < cs.length →
      (cs.getD m 0 :: cs.set m c).Perm (c :: cs) := by
  intro cs
  induction cs with
  | nil => intro m hm; simp at hm
  | cons d ds ih =>
    intro m hm
    cases m with
    | zero =>
      simp only [List.getD_cons_zero, List.set_cons_zero]
      exact List.Perm.swap c d ds
    | succ k =>
      simp only [List.getD_cons_succ, List.set_cons_succ]
      have hk : k < ds.length := by simpa using hm
      exact (List.Perm.swap d (ds.getD k 0) (ds.set k c)).trans
        (((ih k hk).cons d).trans (List.Perm.swap c d ds))

theorem listSwap_perm :
    ∀ (l : List Nat) (i j : Nat), i < l.length → j < l.length →
      (listSwap l i j).Perm l := by
  intro l
  induction l with
  | nil => intro i j hi; simp at hi
  | cons c cs ih =>
    intro i j hi hj
    cases i with
    | zero =>
      cases j with
      | zero => simp [listSwap]
      | succ k =>
        have hk : k < cs.length := by simpa using hj
        simp only [listSwap, List.getD_cons_zero, List.getD_cons_succ,
          List.set_cons_zero, List.set_cons_succ]
        exact headSwap_perm c cs k hk
    | succ m =>
      have hm : m < cs.length := by simpa using hi
      cases j with
      | zero =>
        simp only [listSwap, List.getD_cons_zero, List.getD_cons_succ,
          List.set_cons_zero, List.set_cons_succ]
        exact headSwap_perm c cs m hm
      | succ k =>
        have hk : k < cs.length := by simpa using hj
        simp only [listSwap, List.getD_cons_succ, List.set_cons_succ]
        exact (ih m k hm hk).cons c

theorem listSwap_length (l : List Nat) (i j : Nat) :
    (listSwap l i j).length = l.length := by
  simp [listSwap]

theorem listSwap_take (l : List Nat) (i j n : Nat) (hi : i < n) (hj : j < n) :
    (listSwap l i j).take n = listSwap (l.take n) i j := by
  have hgi : (l.take n).getD i 0 = l.getD i 0 := by
    rw [List.getD_eq_getElem?_getD, List.getD_eq_getElem?_getD,
      List.getElem?_take_of_lt hi]
  have hgj : (l.take n).getD j 0 = l.getD j 0 := by
    rw [List.getD_eq_getElem?_getD, List.getD_eq_getElem?_getD,
      List.getElem?_take_of_lt hj]
  simp only [listSwap, List.set_take, hgi, hgj]

theorem seqInit_eq (k : Nat) :
    ∀ l : List Nat, k ≤ l.length →
      (List.range k).foldl (fun l i => l.set i i) l = List.range k ++ l.drop k := by
  induction k with
  | zero => intro l _; simp
  | succ k ih =>
    intro l hk
    have hklen : k < l.length := by omega
    rw [List.range_succ, List.foldl_append, ih l (by omega)]
    simp only [List.foldl_cons, List.foldl_nil]
    have hlen : (List.range k).length = k := List.length_range k
    rw [List.set_append_right k k (le_of_eq hlen)]
    have hdrop : (l.drop k).set (k - (List.range k).length) k = k :: l.drop (k + 1) := by
      rw [hlen, Nat.sub_self, List.drop_eq_getElem_cons hklen, List.set_cons_zero]
    rw [hdrop]
    simp [List.append_assoc]

theorem fyFold_perm (tape : RTape) (idxs : List Nat) (hidx : ∀ x ∈ idxs, x < 11) :
    ∀ (l : List Nat) (pos : Nat), 11 ≤ l.length →
      ((idxs.foldl
        (fun (lp : List Nat × Nat) i =>
          ((listSwap lp.1 i ((tape lp.2 i).val)), lp.2 + 1)) (l, pos)).1.take 11).Perm
        (l.take 11) ∧
      (idxs.foldl
        (fun (lp : List Nat × Nat) i =>
          ((listSwap lp.1 i ((tape lp.2 i).val)), lp.2 + 1)) (l, pos)).1.length
        = l.length := by
  induction idxs with
  | nil => exact fun l pos _ => ⟨List.Perm.refl _, rfl⟩
  | cons i idxs ih =>
    intro l pos hlen
    have hi : i < 11 := hidx i (List.mem_cons_self i idxs)
    have hidx' : ∀ x ∈ idxs, x < 11 := fun x hx => hidx x (List.mem_cons_of_mem i hx)
    have hj : (tape pos i).val < 11 := by
      have := (tape pos i).isLt
      omega
    rw [List.foldl_cons]
    obtain ⟨hperm, hlen2⟩ := ih hidx' (listSwap l i ((tape pos i).val)) (pos + 1)
      (by rw [listSwap_length]; exact hlen)
    refine ⟨hperm.trans ?_, by rw [hlen2, listSwap_length]⟩
    rw [listSwap_take l i ((tape pos i).val) 11 hi hj]
    refine listSwap_perm (l.take 11) i ((tape pos i).val) ?_ ?_ <;>
      (rw [List.length_take]; omega)

theorem elapsed_add (a h : Nat) (hh : h < 2 ^ 32) : elapsed (a + h) a = h := by
  unfold elapsed
  have h1 : a % 2 ^ 32 ≤ a := Nat.mod_le a (2 ^ 32)
  have h2 : a + h + 2 ^ 32 - a % 2 ^ 32 = 2 ^ 32 * (a / 2 ^ 32) + (h + 2 ^ 32) := by
    have h3 := Nat.mod_add_div a (2 ^ 32)
    omega
  rw [h2, Nat.mul_add_mod, Nat.add_mod_right, Nat.mod_eq_of_lt hh]

theorem buildShuffledOrder_spec (tape : RTape) (s : Ctrl)
    (hlen : 11 ≤ s.playOrder.length) :
    ((buildShuffledOrder tape s).playOrder.take 11).Perm (List.range 11) ∧
    (buildShuffledOrder tape s).playOrder.length = s.playOrder.length ∧
    (buildShuffledOrder tape s).playPos = 0 := by
  have hpl : playlistLen = 11 := rfl
  have hseq := seqInit_eq 11 s.playOrder hlen
  obtain ⟨hperm, hlen2⟩ := fyFold_perm tape fyIdxs (by decide)
    ((List.range 11).foldl (fun l i => l.set i i) s.playOrder) s.rngPos
    (by rw [hseq]; simp [List.length_append, List.length_range])
  have hord : (buildShuffledOrder tape s).playOrder =
      (fyIdxs.foldl
        (fun (lp : List Nat × Nat) i =>
          ((listSwap lp.1 i ((tape lp.2 i).val)), lp.2 + 1))
        ((List.range 11).foldl (fun l i => l.set i i) s.playOrder, s.rngPos)).1 := by
    simp only [buildShuffledOrder, hpl]
  refine ⟨?_, ?_, rfl⟩
  · rw [hord]
    refine hperm.trans ?_
    rw [hseq, List.take_left' (List.length_range 11)]
  · rw [hord, hlen2, hseq]
    simp [List.length_append, List.length_range]
    omega

theorem dropTake_cons (l : List Nat) (p n : Nat) (hp : p < l.length) :
    (l.drop p).take (n + 1) = l.getD p 0 :: (l.drop (p + 1)).take n := by
  rw [List.drop_eq_getElem_cons hp, List.take_succ_cons,
    List.getD_eq_getElem?_getD, List.getElem?_eq_getElem hp]
  rfl

theorem consumeRun_spec (tape : RTape) (n : Nat) :
    ∀ s : Ctrl, s.relaysEnabled = true → s.allOnMode = false →
      s.shuffleEnabled = true → s.patternHoldMs < 2 ^ 32 →
      11 ≤ s.playOrder.length → s.playPos + n ≤ 11 →
      (consumeRun tape n s).2 = (s.playOrder.drop s.playPos).take n := by
  induction n with
  | zero =>
    intro s _ _ _ _ _ _
    simp [consumeRun]
  | succ n ih =>
    intro s hE hA hS hH hL hP
    have hnotdue : ¬(elapsed (s.patternStart + s.patternHoldMs) s.patternStart
        < s.patternHoldMs) := by
      rw [elapsed_add _ _ hH]
      omega
    have hpp : ¬(playlistLen ≤ s.playPos) := by
      have hpl : playlistLen = 11 := rfl
      omega
    have hadv : maybeAdvancePattern tape s (s.patternStart + s.patternHoldMs) =
        startPattern (s.patternStart + s.patternHoldMs)
          (playlist.getD (s.playOrder.getD s.playPos 0) CHASE)
          { s with playPos := s.playPos + 1 } := by
      unfold maybeAdvancePattern
      rw [if_neg (fun hc => by rw [hE] at hc; exact absurd hc (by decide))]
      rw [if_neg (fun hc => by rw [hA] at hc; exact absurd hc (by decide))]
      rw [if_neg (fun hc => by rw [hS] at hc; exact absurd hc (by decide))]
      rw [if_neg hnotdue, if_neg hpp]
    show s.playOrder.getD s.playPos 0
        :: (consumeRun tape n (maybeAdvancePattern tape s
            (s.patternStart + s.patternHoldMs))).2
      = (s.playOrder.drop s.playPos).take (n + 1)
    have hrec := ih (startPattern (s.patternStart + s.patternHoldMs)
        (playlist.getD (s.playOrder.getD s.playPos 0) CHASE)
        { s with playPos := s.playPos + 1 })
      hE hA hS hH hL (by show s.playPos + 1 + n ≤ 11; omega)
    rw [hadv, hrec, dropTake_cons s.playOrder s.playPos n (by omega)]
    rfl

theorem buildShuffledOrder_flags (tape : RTape) (s : Ctrl) :
    (buildShuffledOrder tape s).relaysEnabled = s.relaysEnabled ∧
    (buildShuffledOrder tape s).allOnMode = s.allOnMode ∧
    (buildShuffledOrder tape s).shuffleEnabled = s.shuffleEnabled ∧
    (buildShuffledOrder tape s).patternHoldMs = s.patternHoldMs := by
  simp [buildShuffledOrder]

/-- C9: with shuffle enabled, `buildShuffledOrder` produces — for every
outcome of the random source — a permutation of the playlist indices
`0..10` in its first `playlistLen` slots, and eleven due advances of
`maybeAdvancePattern` consume exactly those slots in order (each index
exactly once, with no rebuild in between), so every playlist pattern
appears exactly once per rotation cycle. -/
theorem C9_shuffle_no_repeat :
    ∀ (tape : RTape) (s : Ctrl),
      s.relaysEnabled = true → s.allOnMode = false → s.shuffleEnabled = true →
      s.patternHoldMs < 2 ^ 32 → playlistLen ≤ s.playOrder.length →
      ((buildShuffledOrder tape s).playOrder.take playlistLen).Perm
        (List.range playlistLen) ∧
      (consumeRun tape playlistLen (buildShuffledOrder tape s)).2
        = (buildShuffledOrder tape s).playOrder.take playlistLen ∧
      ((consumeRun tape playlistLen (buildShuffledOrder tape s)).2.map
          (fun k => playlist.getD k CHASE)).Perm playlist := by
  intro tape s hE hA hS hH hL
  have hpl : playlistLen = 11 := rfl
  rw [hpl] at hL
  obtain ⟨h1, h2, h3⟩ := buildShuffledOrder_spec tape s hL
  obtain ⟨f1, f2, f3, f4⟩ := buildShuffledOrder_flags tape s
  have hL2 : 11 ≤ (buildShuffledOrder tape s).playOrder.length := by
    rw [h2]
    exact hL
  have hcons := consumeRun_spec tape 11 (buildShuffledOrder tape s)
    (f1.trans hE) (f2.trans hA) (f3.trans hS)
    (lt_of_eq_of_lt f4 hH) hL2 (by rw [h3]; try omega)
  rw [h3, List.drop_zero] at hcons
  have hmap : (List.range 11).map (fun k => playlist.getD k CHASE) = playlist := rfl
  refine ⟨by rw [hpl]; exact h1, by rw [hpl]; exact hcons, ?_⟩
  rw [hpl, hcons]
  refine (h1.map (fun k => playlist.getD k CHASE)).trans ?_
  rw [hmap]

/-- Concrete instantiation of `C9_shuffle_no_repeat` on the all-zeros
tape from the powered-on initial state. -/
theorem C9_shuffle_no_repeat_witness :
    (((buildShuffledOrder tapeZ { initCtrl with relaysEnabled := true }).playOrder.take
        playlistLen).Perm (List.range playlistLen)) ∧
    ((consumeRun tapeZ playlistLen
        (buildShuffledOrder tapeZ { initCtrl with relaysEnabled := true })).2.map
      (fun k => playlist.getD k CHASE)).Perm playlist := by
  have h := C9_shuffle_no_repeat tapeZ { initCtrl with relaysEnabled := true }
    rfl rfl rfl (by decide) (by decide)
  exact ⟨h.1, h.2.2⟩

theorem applyFrame_misc (s : Ctrl) (now frame : Nat) :
    patState (applyFrame s now frame) = patState s ∧
    (applyFrame s now frame).overheatShutdown = s.overheatShutdown ∧
    (applyFrame s now frame).relaysEnabled = s.relaysEnabled ∧
    (applyFrame s now frame).allOnMode = s.allOnMode ∧
    (applyFrame s now frame).manualOverride = s.manualOverride ∧
    (applyFrame s now frame).alreadyOff = s.alreadyOff := by
  obtain ⟨fr, lc, pn, h⟩ := applyFrame_shape s now frame
  rw [h]
  exact ⟨rfl, rfl, rfl, rfl, rfl, rfl⟩

theorem forceAllRelaysOff_misc (s : Ctrl) (now : Nat) :
    patState (forceAllRelaysOff s now) = patState s ∧
    (forceAllRelaysOff s now).overheatShutdown = s.overheatShutdown ∧
    (forceAllRelaysOff s now).relaysEnabled = s.relaysEnabled ∧
    (forceAllRelaysOff s now).allOnMode = s.allOnMode ∧
    (forceAllRelaysOff s now).manualOverride = s.manualOverride ∧
    (forceAllRelaysOff s now).alreadyOff = s.alreadyOff := by
  obtain ⟨fr, lc, pn, h⟩ := forceAllRelaysOff_shape s now
  rw [h]
  exact ⟨rfl, rfl, rfl, rfl, rfl, rfl⟩

theorem burstFill_shape (tape : RTape) (c : Nat) :
    ∀ (fuel mask : Nat) (s : Ctrl),
      ∃ p, (burstFill tape c fuel mask s).2 = { s with rngPos := p } := by
  intro fuel
  induction fuel with
  | zero => exact fun mask s => ⟨s.rngPos, rfl⟩
  | succ fuel ih =>
    intro mask s
    by_cases hc : popcount8 mask < c
    · simp only [burstFill, if_pos hc, randBelow]
      obtain ⟨p, hp⟩ := ih (mask ||| 1 <<< (tape s.rngPos 7).val)
        { s with rngPos := s.rngPos + 1 }
      rw [hp]
      exact ⟨p, rfl⟩
    · simp only [burstFill, if_neg hc]
      exact ⟨s.rngPos, rfl⟩

theorem frameRB_shape (tape : RTape) (s : Ctrl) :
    ∃ m n p, (frame_RANDOM_BURSTS tape s).1 =
      { s with burstMask := m, burstLeft := n, rngPos := p } := by
  unfold frame_RANDOM_BURSTS
  split
  · exact ⟨_, _, _, rfl⟩
  · simp only [randBelow]
    split
    · obtain ⟨p, hbf⟩ := burstFill_shape tape _ 32 0 _
      rw [hbf]
      exact ⟨_, _, _, rfl⟩
    · exact ⟨_, _, _, rfl⟩

theorem nextPatternFrame_shape (tape : RTape) (s : Ctrl) :
    ∃ a b c d e f g h i j k l m n o p q, (nextPatternFrame tape s).1 =
      { s with
        patIndex := a, waveFilling := b, waveLevel := c, altEvenOn := d,
        bounceIdx := e, bounceDir := f, gapPos := g, ppIdx := h, ppDir := i,
        blockWidth := j, owK := k, sparkleMask := l, burstMask := m,
        burstLeft := n, binCount := o, halfLeftOn := q, rngPos := p } := by
  cases hp : s.currentPattern
  all_goals
    simp only [nextPatternFrame, hp, frame_ALT_EVEN_ODD, frame_BOUNCE,
      frame_CHASE_GAP, frame_PAIR_PINGPONG, frame_BLOCK_WIPE, frame_OVERLAP_WAVE,
      frame_SPARKLE_SPARSE, frame_HALF_SWAP, frame_BINARY_COUNT, randBelow]
  all_goals try
    (obtain ⟨m2, n2, p2, hrb⟩ := frameRB_shape tape s
     rw [hrb, hp]
     exact ⟨_, _, _, _, _, _, _, _, _, _, _, _, _, _, _, _, _, rfl⟩)
  all_goals repeat' split
  all_goals exact ⟨_, _, _, _, _, _, _, _, _, _, _, _, _, _, _, _, _, rfl⟩

theorem stepPatternIfDue_flags (tape : RTape) (s : Ctrl) (now : Nat) :
    (stepPatternIfDue tape s now).overheatShutdown = s.overheatShutdown ∧
    (stepPatternIfDue tape s now).relaysEnabled = s.relaysEnabled ∧
    (stepPatternIfDue tape s now).allOnMode = s.allOnMode ∧
    (stepPatternIfDue tape s now).manualOverride = s.manualOverride := by
  unfold stepPatternIfDue
  by_cases hA : s.allOnMode
  · rw [if_pos hA]
    exact ⟨rfl, rfl, rfl, rfl⟩
  · rw [if_neg hA]
    dsimp only
    by_cases hD : elapsed now s.lastPatStep <
        (if s.patternSpeed < (minDwellMs : Int) then (minDwellMs : Int)
         else s.patternSpeed).toNat
    · rw [if_pos hD]
      exact ⟨rfl, rfl, rfl, rfl⟩
    · rw [if_neg hD]
      obtain ⟨a1, a2, a3, a4, a5, a6, a7, a8, a9, a10, a11, a12, a13, a14, a15,
        a16, a17, hnp⟩ := nextPatternFrame_shape tape { s with lastPatStep := now }
      cases hpat : nextPatternFrame tape { s with lastPatStep := now } with
      | mk s2 frame =>
        rw [hpat] at hnp
        have hs2 : s2 = _ := hnp
        subst hs2
        obtain ⟨_, h2, h3, h4, h5, _⟩ := applyFrame_misc _ now frame
        exact ⟨h2, h3, h4, h5⟩

theorem maybeAdvancePattern_noop (tape : RTape) (s : Ctrl) (now : Nat)
    (h : s.relaysEnabled = false ∨ s.allOnMode = true) :
    maybeAdvancePattern tape s now = s := by
  unfold maybeAdvancePattern
  rcases h with h | h
  · rw [if_pos h]
  · by_cases hE : s.relaysEnabled = false
    · rw [if_pos hE]
    · rw [if_neg hE, if_pos h]

theorem sunsetBlock_shape (e : TickEnv) (s : Ctrl) :
    ∃ a b c, sunsetBlock e s = { s with on_h := a, on_m := b, lastSunsetUpdate := c } := by
  rcases hs : e.sunset with _ | (_ | ⟨h, m⟩)
  · unfold sunsetBlock
    rw [hs]
    exact ⟨_, _, _, rfl⟩
  · unfold sunsetBlock
    rw [hs]
    dsimp only
    by_cases hU : s.useSunset
    · rw [if_pos hU]
      by_cases hE : 86400000 < elapsed e.now s.lastSunsetUpdate
      · rw [if_pos hE]
        exact ⟨_, _, _, rfl⟩
      · rw [if_neg hE]
        exact ⟨_, _, _, rfl⟩
    · rw [if_neg hU]
      exact ⟨_, _, _, rfl⟩
  · unfold sunsetBlock
    rw [hs]
    dsimp only
    by_cases hU : s.useSunset
    · rw [if_pos hU]
      by_cases hE : 86400000 < elapsed e.now s.lastSunsetUpdate
      · rw [if_pos hE]
        exact ⟨_, _, _, rfl⟩
      · rw [if_neg hE]
        exact ⟨_, _, _, rfl⟩
    · rw [if_neg hU]
      exact ⟨_, _, _, rfl⟩

theorem sunsetBlock_misc (e : TickEnv) (s : Ctrl) :
    patState (sunsetBlock e s) = patState s ∧
    (sunsetBlock e s).overheatShutdown = s.overheatShutdown ∧
    (sunsetBlock e s).relaysEnabled = s.relaysEnabled ∧
    (sunsetBlock e s).allOnMode = s.allOnMode ∧
    (sunsetBlock e s).manualOverride = s.manualOverride ∧
    (sunsetBlock e s).alreadyOff = s.alreadyOff := by
  obtain ⟨a, b, c, hsh⟩ := sunsetBlock_shape e s
  rw [hsh]
  exact ⟨rfl, rfl, rfl, rfl, rfl, rfl⟩

theorem checkTemp_misc (s : Ctrl) (now : Nat) (r : Option ℚ) :
    patState (checkTemperatureAndProtect s now r) = patState s ∧
    (checkTemperatureAndProtect s now r).allOnMode = s.allOnMode ∧
    (checkTemperatureAndProtect s now r).manualOverride = s.manualOverride := by
  unfold checkTemperatureAndProtect
  by_cases h1 : elapsed now s.lastTempReadMs < TEMP_READ_INTERVAL_MS
  · rw [if_pos h1]
    exact ⟨rfl, rfl, rfl⟩
  · rw [if_neg h1]
    dsimp only
    rcases r with _ | t
    · exact ⟨rfl, rfl, rfl⟩
    · dsimp only
      by_cases h2 : s.overheatShutdown = false ∧ OVERHEAT_ON_C ≤ t
      · rw [if_pos h2]
        obtain ⟨p1, _, _, p4, p5, _⟩ := forceAllRelaysOff_misc
          { s with lastTempReadMs := now, enclosureTemp := some t,
                   overheatShutdown := true } now
        exact ⟨p1, p4, p5⟩
      · rw [if_neg h2]
        by_cases h3 : s.overheatShutdown = true ∧ t ≤ OVERHEAT_OFF_C
        · rw [if_pos h3]
          exact ⟨rfl, rfl, rfl⟩
        · rw [if_neg h3]
          exact ⟨rfl, rfl, rfl⟩

theorem checkTemp_no_trip (s : Ctrl) (now : Nat) (r : Option ℚ)
    (hO : s.overheatShutdown = false)
    (hr : ∀ t, r = some t → t < OVERHEAT_ON_C) :
    (checkTemperatureAndProtect s now r).overheatShutdown = false ∧
    (checkTemperatureAndProtect s now r).relaysEnabled = s.relaysEnabled := by
  unfold checkTemperatureAndProtect
  by_cases h1 : elapsed now s.lastTempReadMs < TEMP_READ_INTERVAL_MS
  · rw [if_pos h1]
    exact ⟨hO, rfl⟩
  · rw [if_neg h1]
    dsimp only
    rcases r with _ | t
    · exact ⟨hO, rfl⟩
    · dsimp only
      have ht := hr t rfl
      rw [if_neg (fun hc => absurd hc.2 (not_le.mpr ht)),
          if_neg (fun hc => by rw [hO] at hc; exact absurd hc.1 (by decide))]
      exact ⟨hO, rfl⟩

theorem scheduleBlock_misc (e : TickEnv) (s : Ctrl) :
    patState (scheduleBlock e s) = patState s ∧
    (scheduleBlock e s).overheatShutdown = s.overheatShutdown ∧
    (scheduleBlock e s).manualOverride = s.manualOverride := by
  unfold scheduleBlock
  by_cases h1 : s.manualOverride = false ∧ 1000 < elapsed e.now s.lastScheduleCheck
  · rw [if_pos h1]
    dsimp only
    by_cases h2 : computeShouldBeOn e.time { s with lastScheduleCheck := e.now } ≠
        s.relaysEnabled
    · rw [if_pos h2]
      by_cases h3 : computeShouldBeOn e.time { s with lastScheduleCheck := e.now } = true
      · rw [if_pos h3]
        exact ⟨rfl, rfl, rfl⟩
      · rw [if_neg h3]
        obtain ⟨p1, p2, _, _, p5, _⟩ := forceAllRelaysOff_misc
          { s with lastScheduleCheck := e.now,
                   relaysEnabled :=
                     computeShouldBeOn e.time { s with lastScheduleCheck := e.now },
                   alreadyOff :=
                     !computeShouldBeOn e.time { s with lastScheduleCheck := e.now },
                   allOnMode := false } e.now
        exact ⟨p1, p2, p5⟩
    · rw [if_neg h2]
      exact ⟨rfl, rfl, rfl⟩
  · rw [if_neg h1]
    exact ⟨rfl, rfl, rfl⟩

theorem scheduleBlock_flags (e : TickEnv) (s : Ctrl) :
    ((scheduleBlock e s).allOnMode = s.allOnMode ∧
     (scheduleBlock e s).relaysEnabled = s.relaysEnabled) ∨
    ((scheduleBlock e s).allOnMode = s.allOnMode ∧
     (scheduleBlock e s).relaysEnabled = true) ∨
    ((scheduleBlock e s).allOnMode = false ∧
     (scheduleBlock e s).relaysEnabled = false) := by
  unfold scheduleBlock
  by_cases h1 : s.manualOverride = false ∧ 1000 < elapsed e.now s.lastScheduleCheck
  · rw [if_pos h1]
    dsimp only
    by_cases h2 : computeShouldBeOn e.time { s with lastScheduleCheck := e.now } ≠
        s.relaysEnabled
    · rw [if_pos h2]
      by_cases h3 : computeShouldBeOn e.time { s with lastScheduleCheck := e.now } = true
      · rw [if_pos h3]
        exact Or.inr (Or.inl ⟨rfl, h3⟩)
      · rw [if_neg h3]
        obtain ⟨_, _, p3, p4, _, _⟩ := forceAllRelaysOff_misc
          { s with lastScheduleCheck := e.now,
                   relaysEnabled :=
                     computeShouldBeOn e.time { s with lastScheduleCheck := e.now },
                   alreadyOff :=
                     !computeShouldBeOn e.time { s with lastScheduleCheck := e.now },
                   allOnMode := false } e.now
        exact Or.inr (Or.inr ⟨p4, p3.trans (Bool.eq_false_iff.mpr h3)⟩)
    · rw [if_neg h2]
      exact Or.inl ⟨rfl, rfl⟩
  · rw [if_neg h1]
    exact Or.inl ⟨rfl, rfl⟩


theorem buildShuffledOrder_flags2 (tape : RTape) (s : Ctrl) :
    (buildShuffledOrder tape s).overheatShutdown = s.overheatShutdown ∧
    (buildShuffledOrder tape s).relaysEnabled = s.relaysEnabled ∧
    (buildShuffledOrder tape s).allOnMode = s.allOnMode ∧
    (buildShuffledOrder tape s).manualOverride = s.manualOverride ∧
    (buildShuffledOrder tape s).alreadyOff = s.alreadyOff := by
  simp [buildShuffledOrder]

theorem stepPatternIfDue_allOn (tape : RTape) (s : Ctrl) (now : Nat)
    (h : s.allOnMode = true) : stepPatternIfDue tape s now = s := by
  unfold stepPatternIfDue
  rw [if_pos h]

theorem maybeAdvancePattern_flags (tape : RTape) (s : Ctrl) (now : Nat) :
    (maybeAdvancePattern tape s now).overheatShutdown = s.overheatShutdown ∧
    (maybeAdvancePattern tape s now).relaysEnabled = s.relaysEnabled ∧
    (maybeAdvancePattern tape s now).allOnMode = s.allOnMode ∧
    (maybeAdvancePattern tape s now).alreadyOff = s.alreadyOff := by
  unfold maybeAdvancePattern
  by_cases h1 : s.relaysEnabled = false
  · rw [if_pos h1]
    exact ⟨rfl, rfl, rfl, rfl⟩
  · rw [if_neg h1]
    by_cases h2 : s.allOnMode
    · rw [if_pos h2]
      exact ⟨rfl, rfl, rfl, rfl⟩
    · rw [if_neg h2]
      by_cases h3 : s.shuffleEnabled = false
      · rw [if_pos h3]
        exact ⟨rfl, rfl, rfl, rfl⟩
      · rw [if_neg h3]
        by_cases h4 : elapsed now s.patternStart < s.patternHoldMs
        · rw [if_pos h4]
          exact ⟨rfl, rfl, rfl, rfl⟩
        · rw [if_neg h4]
          dsimp only
          by_cases h5 : playlistLen ≤ s.playPos
          · rw [if_pos h5]
            simp [startPattern, buildShuffledOrder]
          · rw [if_neg h5]
            exact ⟨rfl, rfl, rfl, rfl⟩

theorem handleSetSchedule_flags (onS offS : List Char) (s : Ctrl) :
    (handleSetSchedule onS offS s).overheatShutdown = s.overheatShutdown ∧
    (handleSetSchedule onS offS s).relaysEnabled = s.relaysEnabled ∧
    (handleSetSchedule onS offS s).allOnMode = s.allOnMode := by
  unfold handleSetSchedule
  cases parseTimeStr onS with
  | none =>
    cases parseTimeStr offS with
    | none => exact ⟨rfl, rfl, rfl⟩
    | some q =>
      obtain ⟨a, b⟩ := q
      exact ⟨rfl, rfl, rfl⟩
  | some p =>
    obtain ⟨a, b⟩ := p
    cases parseTimeStr offS with
    | none => exact ⟨rfl, rfl, rfl⟩
    | some q =>
      obtain ⟨a2, b2⟩ := q
      exact ⟨rfl, rfl, rfl⟩

theorem handleSetShuffle_flags (tape : RTape) (arg : String) (s : Ctrl)
    (now : Nat) :
    (handleSetShuffle tape arg s now).overheatShutdown = s.overheatShutdown ∧
    (handleSetShuffle tape arg s now).relaysEnabled = s.relaysEnabled ∧
    (handleSetShuffle tape arg s now).allOnMode = s.allOnMode := by
  unfold handleSetShuffle
  dsimp only
  split
  · simp [buildShuffledOrder]
  · split
    · exact ⟨rfl, rfl, rfl⟩
    · exact ⟨rfl, rfl, rfl⟩

theorem loopTickTail_inv (tape : RTape) (now : Nat) (S3 : Ctrl)
    (hO3 : S3.overheatShutdown = false)
    (hA3 : S3.allOnMode = true → S3.relaysEnabled = true) :
    allOnInv
      (if S3.allOnMode && S3.relaysEnabled && !S3.overheatShutdown then
        applyFrame S3 now 255
      else
        let s4 := maybeAdvancePattern tape S3 now
        if s4.relaysEnabled && !s4.overheatShutdown then
          stepPatternIfDue tape { s4 with alreadyOff := false } now
        else if !s4.alreadyOff then
          { forceAllRelaysOff s4 now with alreadyOff := true }
        else s4) := by
  by_cases hc : (S3.allOnMode && S3.relaysEnabled && !S3.overheatShutdown) = true
  · rw [if_pos hc]
    obtain ⟨_, m2, m3, m4, _, _⟩ := applyFrame_misc S3 now 255
    exact ⟨m2.trans hO3, fun h => m3.trans (hA3 (m4.symm.trans h))⟩
  · rw [if_neg hc]
    dsimp only
    obtain ⟨g1, g2, g3, _⟩ := maybeAdvancePattern_flags tape S3 now
    have hO4 : (maybeAdvancePattern tape S3 now).overheatShutdown = false :=
      g1.trans hO3
    have hA4 : (maybeAdvancePattern tape S3 now).allOnMode = true →
        (maybeAdvancePattern tape S3 now).relaysEnabled = true :=
      fun h => g2.trans (hA3 (g3.symm.trans h))
    by_cases hc2 : ((maybeAdvancePattern tape S3 now).relaysEnabled &&
        !(maybeAdvancePattern tape S3 now).overheatShutdown) = true
    · rw [if_pos hc2]
      obtain ⟨p1, p2, p3, _⟩ := stepPatternIfDue_flags tape
        { maybeAdvancePattern tape S3 now with alreadyOff := false } now
      exact ⟨p1.trans hO4, fun h => p2.trans (hA4 (p3.symm.trans h))⟩
    · rw [if_neg hc2]
      by_cases hc3 : (!(maybeAdvancePattern tape S3 now).alreadyOff) = true
      · rw [if_pos hc3]
        obtain ⟨_, w2, w3, w4, _, _⟩ := forceAllRelaysOff_misc
          (maybeAdvancePattern tape S3 now) now
        exact ⟨w2.trans hO4, fun h => w3.trans (hA4 (w4.symm.trans h))⟩
      · rw [if_neg hc3]
        exact ⟨hO4, hA4⟩

theorem loopTick_inv (tape : RTape) (e : TickEnv) (s : Ctrl)
    (hs : allOnInv s)
    (ht : ∀ t, e.temp = some t → t < OVERHEAT_ON_C) :
    allOnInv (loopTick tape e s) := by
  obtain ⟨hO, hA⟩ := hs
  obtain ⟨_, q2, q3, q4, _, _⟩ := sunsetBlock_misc e s
  obtain ⟨hO2, hR2⟩ := checkTemp_no_trip (sunsetBlock e s) e.now e.temp
    (q2.trans hO) ht
  obtain ⟨_, hA2c, _⟩ := checkTemp_misc (sunsetBlock e s) e.now e.temp
  have hA2 : (checkTemperatureAndProtect (sunsetBlock e s) e.now e.temp).allOnMode
        = true →
      (checkTemperatureAndProtect (sunsetBlock e s) e.now e.temp).relaysEnabled
        = true :=
    fun h => hR2.trans (q3.trans (hA (q4.symm.trans (hA2c.symm.trans h))))
  obtain ⟨_, hO3c, _⟩ := scheduleBlock_misc e
    (checkTemperatureAndProtect (sunsetBlock e s) e.now e.temp)
  have hO3 : (scheduleBlock e
      (checkTemperatureAndProtect (sunsetBlock e s) e.now e.temp)).overheatShutdown
        = false := hO3c.trans hO2
  have hA3 : (scheduleBlock e
      (checkTemperatureAndProtect (sunsetBlock e s) e.now e.temp)).allOnMode
        = true →
      (scheduleBlock e
        (checkTemperatureAndProtect (sunsetBlock e s) e.now e.temp)).relaysEnabled
        = true := by
    rcases scheduleBlock_flags e
        (checkTemperatureAndProtect (sunsetBlock e s) e.now e.temp) with
      ⟨fA, fR⟩ | ⟨fA, fR⟩ | ⟨fA, fR⟩
    · exact fun h => fR.trans (hA2 (fA.symm.trans h))
    · exact fun _ => fR
    · exact fun h => Bool.noConfusion (fA.symm.trans h)
  exact loopTickTail_inv tape e.now _ hO3 hA3

theorem loopTickTail_freeze (tape : RTape) (now : Nat) (S3 : Ctrl)
    (h : S3.allOnMode = true ∨
      (S3.allOnMode = false ∧ S3.relaysEnabled = false)) :
    patState
      (if S3.allOnMode && S3.relaysEnabled && !S3.overheatShutdown then
        applyFrame S3 now 255
      else
        let s4 := maybeAdvancePattern tape S3 now
        if s4.relaysEnabled && !s4.overheatShutdown then
          stepPatternIfDue tape { s4 with alreadyOff := false } now
        else if !s4.alreadyOff then
          { forceAllRelaysOff s4 now with alreadyOff := true }
        else s4) = patState S3 := by
  have hnoop : maybeAdvancePattern tape S3 now = S3 :=
    maybeAdvancePattern_noop tape S3 now
      (h.elim (fun h1 => Or.inr h1) (fun h2 => Or.inl h2.2))
  by_cases hc : (S3.allOnMode && S3.relaysEnabled && !S3.overheatShutdown) = true
  · rw [if_pos hc]
    exact (applyFrame_misc S3 now 255).1
  · rw [if_neg hc]
    dsimp only
    rw [hnoop]
    by_cases hc2 : (S3.relaysEnabled && !S3.overheatShutdown) = true
    · rw [if_pos hc2]
      rcases h with h1 | ⟨h2, h3⟩
      · rw [stepPatternIfDue_allOn tape _ now
          (show ({ S3 with alreadyOff := false } : Ctrl).allOnMode = true from h1)]
        rfl
      · rw [h3] at hc2
        simp at hc2
    · rw [if_neg hc2]
      by_cases hc3 : (!S3.alreadyOff) = true
      · rw [if_pos hc3]
        exact (forceAllRelaysOff_misc S3 now).1
      · rw [if_neg hc3]

theorem loopTick_allOn_freeze (tape : RTape) (e : TickEnv) (s : Ctrl)
    (h : s.allOnMode = true) :
    patState (loopTick tape e s) = patState s := by
  obtain ⟨q1, _, _, q4, _, _⟩ := sunsetBlock_misc e s
  obtain ⟨c1, c2, _⟩ := checkTemp_misc (sunsetBlock e s) e.now e.temp
  obtain ⟨s1, _, _⟩ := scheduleBlock_misc e
    (checkTemperatureAndProtect (sunsetBlock e s) e.now e.temp)
  have hA2 : (checkTemperatureAndProtect (sunsetBlock e s) e.now
      e.temp).allOnMode = true := c2.trans (q4.trans h)
  have hS3 : (scheduleBlock e
        (checkTemperatureAndProtect (sunsetBlock e s) e.now e.temp)).allOnMode
          = true ∨
      ((scheduleBlock e
          (checkTemperatureAndProtect (sunsetBlock e s) e.now e.temp)).allOnMode
            = false ∧
       (scheduleBlock e
          (checkTemperatureAndProtect (sunsetBlock e s) e.now
            e.temp)).relaysEnabled = false) := by
    rcases scheduleBlock_flags e
        (checkTemperatureAndProtect (sunsetBlock e s) e.now e.temp) with
      ⟨fA, _⟩ | ⟨fA, _⟩ | ⟨fA, fR⟩
    · exact Or.inl (fA.trans hA2)
    · exact Or.inl (fA.trans hA2)
    · exact Or.inr ⟨fA, fR⟩
  exact (loopTickTail_freeze tape e.now _ hS3).trans (s1.trans (c1.trans q1))

theorem stepEvt_inv (tape : RTape) (s : Ctrl) (ev : Evt)
    (hs : allOnInv s) (ht : evtTempSafe ev = true) :
    allOnInv (stepEvt tape s ev) := by
  obtain ⟨hO, hA⟩ := hs
  cases ev with
  | cmdOn now => exact ⟨hO, fun _ => rfl⟩
  | cmdOff now =>
    refine ⟨?_, fun h => ?_⟩
    · exact ((forceAllRelaysOff_misc
        { s with allOnMode := false, relaysEnabled := false,
                 manualOverride := true } now).2.1).trans hO
    · exact Bool.noConfusion
        ((((forceAllRelaysOff_misc
            { s with allOnMode := false, relaysEnabled := false,
                     manualOverride := true } now).2.2.2.1).symm.trans h :
          (false : Bool) = true))
  | cmdAuto now => exact ⟨hO, hA⟩
  | cmdAllOn now =>
    show allOnInv (handleAllOn s now)
    unfold handleAllOn
    by_cases h1 : s.allOnMode
    · rw [if_pos h1]
      exact ⟨hO, fun h => Bool.noConfusion (h : (false : Bool) = true)⟩
    · rw [if_neg h1]
      by_cases h2 : s.overheatShutdown
      · rw [if_pos h2]
        exact ⟨hO, hA⟩
      · rw [if_neg h2]
        dsimp only
        obtain ⟨_, m2, m3, _, _, _⟩ := applyFrame_misc
          { s with
              relaysEnabled := true, manualOverride := true, allOnMode := true }
          now 255
        exact ⟨m2.trans hO, fun _ => m3.trans rfl⟩
  | cmdPattern now name =>
    show allOnInv (handlePattern name s now)
    unfold handlePattern
    dsimp only
    by_cases h1 : s.allOnMode
    · rw [if_pos h1]
      exact ⟨hO, fun h => Bool.noConfusion (h : (false : Bool) = true)⟩
    · rw [if_neg h1]
      exact ⟨hO, hA⟩
  | cmdSchedule now onS offS =>
    obtain ⟨f1, f2, f3⟩ := handleSetSchedule_flags onS offS s
    exact ⟨f1.trans hO, fun h => f2.trans (hA (f3.symm.trans h))⟩
  | cmdSunsetMode now b => exact ⟨hO, hA⟩
  | cmdSunsetOffset now v => exact ⟨hO, hA⟩
  | cmdSpeed now v => exact ⟨hO, hA⟩
  | cmdShuffle now arg =>
    obtain ⟨f1, f2, f3⟩ := handleSetShuffle_flags tape arg s now
    exact ⟨f1.trans hO, fun h => f2.trans (hA (f3.symm.trans h))⟩
  | cmdHold now v => exact ⟨hO, hA⟩
  | tick e =>
    refine loopTick_inv tape e s ⟨hO, hA⟩ fun t htt => ?_
    unfold evtTempSafe at ht
    dsimp only at ht
    rw [htt] at ht
    exact of_decide_eq_true ht

theorem runFold_inv (tape : RTape) (evts : List Evt) :
    ∀ s : Ctrl, allOnInv s → (∀ ev ∈ evts, evtTempSafe ev = true) →
    allOnInv (run tape s evts) := by
  induction evts with
  | nil => exact fun s hs _ => hs
  | cons ev evts ih =>
    intro s hs hall
    unfold run
    rw [List.foldl_cons]
    exact ih (stepEvt tape s ev)
      (stepEvt_inv tape s ev hs (hall ev (List.mem_cons_self ev evts)))
      (fun x hx => hall x (List.mem_cons_of_mem _ hx))

theorem setupCtrl_inv (tape : RTape) : allOnInv (setupCtrl tape) := by
  constructor
  · exact ((buildShuffledOrder_flags2 tape initCtrl).1).trans rfl
  · intro h
    exact Bool.noConfusion
      ((((buildShuffledOrder_flags2 tape initCtrl).2.2.1).symm.trans h :
        (false : Bool) = true))

theorem setRelaySafe_noop (s : Ctrl) (now : Nat) (i : Nat) (w : Bool)
    (hi : i < 8) (hO : s.overheatShutdown = false) (hR : s.relaysEnabled = true)
    (hb : frameBit s.currentFrame i = w) :
    (setRelaySafe s now ((i : Int)) w).1 = s := by
  have hr : ¬(((i : Int)) < 0 ∨ 8 ≤ ((i : Int))) := by omega
  simp only [setRelaySafe, if_neg hr, Int.toNat_natCast, hO, hR,
    Bool.false_eq_true, if_false, if_true]
  rw [if_pos hb]

theorem setRelaySafe_toggle (s : Ctrl) (now : Nat) (i : Nat) (w : Bool)
    (hi : i < 8) (hO : s.overheatShutdown = false) (hR : s.relaysEnabled = true)
    (hneq : ¬frameBit s.currentFrame i = w)
    (hd : minDwellMs ≤ elapsed now (s.lastChangeMs i)) :
    frameBit (setRelaySafe s now ((i : Int)) w).1.currentFrame i = w := by
  have hr : ¬(((i : Int)) < 0 ∨ 8 ≤ ((i : Int))) := by omega
  simp only [setRelaySafe, writeRelayDirect, if_neg hr, Int.toNat_natCast, hO, hR,
    Bool.false_eq_true, if_false, if_true]
  rw [if_neg hneq, if_neg (by omega)]
  cases w with
  | false =>
    simp only [Bool.false_eq_true, if_false]
    exact frameBit_clear_self _ _ hi
  | true =>
    simp only [if_true]
    exact frameBit_or_self _ _

theorem relayFold_on (now : Nat) (L : List Nat) (j : Nat) (hj : j < 8)
    (hbj : frameBit 255 j = true) :
    ∀ s : Ctrl, (∀ x ∈ L, x < 8) →
    s.overheatShutdown = false → s.relaysEnabled = true →
    (frameBit s.currentFrame j = true →
      frameBit ((L.foldl
        (fun s i => (setRelaySafe s now ((i : Nat) : Int) (frameBit 255 i)).1)
        s)).currentFrame j = true) ∧
    (j ∈ L → minDwellMs ≤ elapsed now (s.lastChangeMs j) →
      frameBit ((L.foldl
        (fun s i => (setRelaySafe s now ((i : Nat) : Int) (frameBit 255 i)).1)
        s)).currentFrame j = true) := by
  induction L with
  | nil =>
    intro s _ _ _
    exact ⟨fun h => h, fun h => absurd h (List.not_mem_nil j)⟩
  | cons i L ih =>
    intro s hL hO hR
    have hi : i < 8 := hL i (List.mem_cons_self i L)
    have hL' : ∀ x ∈ L, x < 8 := fun x hx => hL x (List.mem_cons_of_mem i hx)
    rw [List.foldl_cons]
    obtain ⟨fr, lc, pn, hshape⟩ :=
      setRelaySafe_shape s now ((i : Nat) : Int) (frameBit 255 i)
    have hO' : (setRelaySafe s now ((i : Nat) : Int)
        (frameBit 255 i)).1.overheatShutdown = false := by rw [hshape]; exact hO
    have hR' : (setRelaySafe s now ((i : Nat) : Int)
        (frameBit 255 i)).1.relaysEnabled = true := by rw [hshape]; exact hR
    by_cases hij : j = i
    · subst hij
      constructor
      · intro hb
        have hnoop := setRelaySafe_noop s now j (frameBit 255 j) hj hO hR
          (hb.trans hbj.symm)
        rw [hnoop]
        exact (ih s hL' hO hR).1 hb
      · intro _ hd
        by_cases hb : frameBit s.currentFrame j = true
        · have hnoop := setRelaySafe_noop s now j (frameBit 255 j) hj hO hR
            (hb.trans hbj.symm)
          rw [hnoop]
          exact (ih s hL' hO hR).1 hb
        · have htog := setRelaySafe_toggle s now j (frameBit 255 j) hj hO hR
            (fun hc => hb (hc.trans hbj)) hd
          exact (ih _ hL' hO' hR').1 (htog.trans hbj)
    · obtain ⟨hb, hl⟩ := setRelaySafe_other s now i (frameBit 255 i) j hj hi hij
      obtain ⟨ih1, ih2⟩ := ih _ hL' hO' hR'
      constructor
      · intro h
        exact ih1 (hb.trans h)
      · intro hmem hd
        refine ih2 ((List.mem_cons.mp hmem).resolve_left hij) ?_
        rw [hl]
        exact hd

theorem applyFrame_on (s : Ctrl) (now : Nat) (j : Nat) (hj : j < 8)
    (hO : s.overheatShutdown = false) (hR : s.relaysEnabled = true) :
    (frameBit s.currentFrame j = true →
      frameBit (applyFrame s now 255).currentFrame j = true) ∧
    (minDwellMs ≤ elapsed now (s.lastChangeMs j) →
      frameBit (applyFrame s now 255).currentFrame j = true) := by
  have hbj : frameBit 255 j = true := by
    interval_cases j <;> decide
  have h := relayFold_on now (List.range 8) j hj hbj s
    (fun x hx => List.mem_range.mp hx) hO hR
  refine ⟨?_, ?_⟩
  · intro hb
    have := h.1 hb
    simpa only [applyFrame] using this
  · intro hd
    have := h.2 (List.mem_range.mpr hj) hd
    simpa only [applyFrame] using this

/-- C3 counterexample: after ALL ON, a 50 °C sample trips the interlock
(power off), and a later 45 °C sample clears it; the controller is then
in a reachable state with `allOnMode = true`, the interlock clear, and
power still OFF — contradicting "allOnMode implies power is ON unless
the overheat interlock is set". -/
theorem C3_all_on_counterexample :
    (run tapeZ (setupCtrl tapeZ)
        [Evt.cmdAllOn 1000, Evt.tick ⟨60001, some 50, none, none⟩,
         Evt.tick ⟨120002, some 45, none, none⟩]).allOnMode = true ∧
    (run tapeZ (setupCtrl tapeZ)
        [Evt.cmdAllOn 1000, Evt.tick ⟨60001, some 50, none, none⟩,
         Evt.tick ⟨120002, some 45, none, none⟩]).overheatShutdown = false ∧
    (run tapeZ (setupCtrl tapeZ)
        [Evt.cmdAllOn 1000, Evt.tick ⟨60001, some 50, none, none⟩,
         Evt.tick ⟨120002, some 45, none, none⟩]).relaysEnabled = false := by
  decide

/-- C3 (amended): (i) on every run from power-up in which no temperature
sample ever reaches the 50 °C trip threshold, the interlock stays clear
and `allOnMode` implies power is ON; (ii) while `allOnMode` is true a
`loop()` iteration leaves the whole pattern/playlist stepping state
(active pattern, step counters, playlist order and position) unchanged —
the rotator never advances and the stepper never steps; (iii) with power
ON and the interlock clear, applying the all-on frame `0xFF` keeps every
lit channel lit and lights every channel whose dwell window has
elapsed. -/
theorem C3_all_on_hold :
    (∀ (tape : RTape) (evts : List Evt),
      (∀ ev ∈ evts, evtTempSafe ev = true) →
      (run tape (setupCtrl tape) evts).overheatShutdown = false ∧
      ((run tape (setupCtrl tape) evts).allOnMode = true →
       (run tape (setupCtrl tape) evts).relaysEnabled = true)) ∧
    (∀ (tape : RTape) (e : TickEnv) (s : Ctrl), s.allOnMode = true →
      patState (loopTick tape e s) = patState s) ∧
    (∀ (s : Ctrl) (now j : Nat), j < 8 →
      s.overheatShutdown = false → s.relaysEnabled = true →
      (frameBit s.currentFrame j = true →
        frameBit (applyFrame s now 255).currentFrame j = true) ∧
      (minDwellMs ≤ elapsed now (s.lastChangeMs j) →
        frameBit (applyFrame s now 255).currentFrame j = true)) :=
  ⟨fun tape evts hall =>
     runFold_inv tape evts (setupCtrl tape) (setupCtrl_inv tape) hall,
   fun tape e s h => loopTick_allOn_freeze tape e s h,
   fun s now j hj hO hR => applyFrame_on s now j hj hO hR⟩

/-- Concrete instance of `C3_all_on_hold`: the safe one-command run
`ALL ON` ends with power ON; a tick from an all-on state freezes the
pattern state; and the all-on frame lights channel 0 after its dwell. -/
theorem C3_all_on_hold_witness :
    (run tapeZ (setupCtrl tapeZ) [Evt.cmdAllOn 1000]).relaysEnabled = true ∧
    patState (loopTick tapeZ ⟨0, none, none, none⟩
        { initCtrl with allOnMode := true }) =
      patState { initCtrl with allOnMode := true } ∧
    frameBit (applyFrame { initCtrl with relaysEnabled := true } 60000
        255).currentFrame 0 = true :=
  ⟨(C3_all_on_hold.1 tapeZ [Evt.cmdAllOn 1000] (by decide)).2 (by decide),
   C3_all_on_hold.2.1 tapeZ ⟨0, none, none, none⟩
     { initCtrl with allOnMode := true } (by decide),
   (C3_all_on_hold.2.2 { initCtrl with relaysEnabled := true } 60000 0
     (by decide) (by decide) (by decide)).2 (by decide)⟩
